import Mathlib

/-!
Shallow embedding of the adaptive multi-round web-search engine of
`my-skill-platform` (TypeScript sources under
`src/integrations/rpaskill_ts/src/skills/adaptiveSearch.ts`,
`src/integrations/rpaskill_ts/src/skills/search.ts` and the web-search
fetcher), together with proofs of the specification claims about it.

Modelling conventions:
* JavaScript numbers are modelled as exact rationals (`ℚ`); the scores
  involved are small decimal sums and the claims are about their exact
  arithmetic relationships.
* Effectful calls (the browser-driven fetcher, page summarisation) are
  modelled as explicit oracle functions passed to the embedded
  controller; the i-th round's fetch is the oracle at index `i`.
* Regular-expression tests over alternations of escaped literal keywords
  are modelled as substring tests; `String.length` stands in for
  JavaScript's UTF-16 `length` (they agree on all inputs used here).
* `new URL(u).hostname` is modelled by `urlHostname`, which parses
  `http://` and `https://` URLs and fails (`none`) otherwise, matching
  the `try { new URL(...) } catch { /* ignore */ }` usage sites.
-/

namespace MySkillPlatform

/-- Language tag, source type `'zh' | 'en'`. -/
inductive Lang where
  | zh
  | en
deriving DecidableEq, Repr

/-- Caller language override, source type `'auto' | 'zh' | 'en'`. -/
inductive LangChoice where
  | auto
  | zh
  | en
deriving DecidableEq, Repr

/-- Search goal, source type `SearchGoal`. -/
inductive SearchGoal where
  | auto
  | popular
  | academic
  | shopping
  | technical
deriving DecidableEq, Repr

/-- Search engine, source type `WebSearchEngine = 'bing' | 'baike' | 'baidu'`. -/
inductive Engine where
  | bing
  | baike
  | baidu
deriving DecidableEq, Repr

/-- One organic search hit, source type `{ title, snippet, url }`. -/
structure SimpleResult where
  title : String
  snippet : String
  url : String
deriving DecidableEq, Repr

/-- Boolean list-prefix test used by the substring search. -/
def isPrefixList : List Char → List Char → Bool
  | [], _ => true
  | _ :: _, [] => false
  | a :: as, b :: bs => a = b && isPrefixList as bs

/-- Substring containment: `needle` occurs contiguously in `hay`.
Models `String.prototype.includes` and regex tests of literal text. -/
def containsSub (hay needle : String) : Bool :=
  hay.data.tails.any (fun t => isPrefixList needle.data t)

/-- Lowercasing, `String.prototype.toLowerCase` for the simple
character-by-character case mapping. -/
def strToLower (s : String) : String :=
  String.mk (s.data.map Char.toLower)

/-- Whitespace trimming at both ends, `String.prototype.trim`. -/
def strTrim (s : String) : String :=
  String.mk (((s.data.dropWhile Char.isWhitespace).reverse.dropWhile Char.isWhitespace).reverse)

/-- Splitting on every separator character, with empty pieces kept
(`"a,,b"` gives `["a", "", "b"]`). -/
def splitCharsAux (p : Char → Bool) : List Char → List Char → List (List Char)
  | [], acc => [acc.reverse]
  | c :: cs, acc =>
    if p c then acc.reverse :: splitCharsAux p cs [] else splitCharsAux p cs (c :: acc)

/-- `String.prototype.split` on a separator character class. -/
def strSplit (p : Char → Bool) (s : String) : List String :=
  (splitCharsAux p s.data []).map String.mk

/-- Left-to-right non-overlapping replace-all over characters; the fuel
is the input length, enough for every step to consume at least one
character. -/
def replaceCharsAux (pat repl : List Char) : Nat → List Char → List Char
  | _, [] => []
  | 0, l => l
  | fuel + 1, c :: cs =>
    if pat ≠ [] ∧ isPrefixList pat (c :: cs) = true then
      repl ++ replaceCharsAux pat repl fuel ((c :: cs).drop pat.length)
    else c :: replaceCharsAux pat repl fuel cs

/-- `String.prototype.replace` with a `g`-flagged literal pattern:
every non-overlapping occurrence replaced, scanning left to right. -/
def strReplace (s pat repl : String) : String :=
  String.mk (replaceCharsAux pat.data repl.data s.data.length s.data)

/-- Prefix test over characters (`String.prototype.startsWith`). -/
def strStartsWith (pre s : String) : Bool :=
  isPrefixList pre.data s.data

/-- Suffix test over characters (`String.prototype.endsWith`). -/
def strEndsWith (s suf : String) : Bool :=
  isPrefixList suf.data.reverse s.data.reverse

/-- Dropping a number of leading characters. -/
def strDrop (s : String) (n : Nat) : String :=
  String.mk (s.data.drop n)

/-- The longest prefix of characters satisfying a predicate. -/
def strTakeWhile (p : Char → Bool) (s : String) : String :=
  String.mk (s.data.takeWhile p)

/-- Case-insensitive substring containment; models an `i`-flagged
regex test of a literal alternation part. -/
def containsSubCI (hay needle : String) : Bool :=
  containsSub (strToLower hay) (strToLower needle)

/-- Stable insertion of `x` into a descending-by-key list: elements
with a strictly larger key stay in front, so equal keys keep their
original relative order. -/
def insertDescStable {α : Type} (k : α → Int) (x : α) : List α → List α
  | [] => [x]
  | y :: ys => if k x < k y then y :: insertDescStable k x ys else x :: y :: ys

/-- Stable sort into descending key order: the unique output of any
stable sort under the comparator `(a, b) => k b - k a`, which is what
`Array.prototype.sort` (stable per the language spec) produces. -/
def sortDescStable {α : Type} (k : α → Int) : List α → List α
  | [] => []
  | x :: xs => insertDescStable k x (sortDescStable k xs)

/-- Order-preserving deduplication: models `Array.from(new Set(xs))`
(JavaScript `Set` keeps first-insertion order). -/
def dedupFirst {α : Type} [DecidableEq α] (l : List α) : List α :=
  l.foldl (fun acc x => if x ∈ acc then acc else acc ++ [x]) []

/-- Model of `new URL(url).hostname` for absolute http(s) URLs: strips the
scheme, takes the host up to the first `/`, `?`, `#` or `:`, lowercased.
Returns `none` when parsing would throw (any other shape of input). -/
def urlHostname (url : String) : Option String :=
  let rest : Option String :=
    if strStartsWith "https://" url then some (strDrop url 8)
    else if strStartsWith "http://" url then some (strDrop url 7)
    else none
  match rest with
  | none => none
  | some r =>
    let host := strTakeWhile (fun c => c ≠ '/' && c ≠ '?' && c ≠ '#' && c ≠ ':') r
    if host = "" then none else some (strToLower host)

/-- Per-goal static configuration, source `GoalConfig`. -/
structure GoalConfig where
  preferredDomains : List String
  keywordHints : List String
  keywordHintsEn : List String
  querySuffixZh : Option String := none
  querySuffixEn : Option String := none
  siteFilters : List String := []
deriving DecidableEq, Repr

/-- Source table `GOAL_CONFIGS` (adaptiveSearch.ts lines 27-65). -/
def goalConfig : SearchGoal → GoalConfig
  | .auto =>
    { preferredDomains := ["wikipedia.org", "baike.baidu.com"]
      keywordHints := []
      keywordHintsEn := [] }
  | .popular =>
    { preferredDomains := ["wikipedia.org", "baike.baidu.com", "britannica.com", "zhihu.com"]
      keywordHints := ["是什么", "定义", "原理", "机制", "作用", "特点"]
      keywordHintsEn := ["definition", "overview", "principle", "mechanism", "how", "what"]
      querySuffixZh := some "是什么 原理 机制"
      querySuffixEn := some "definition overview mechanism"
      siteFilters := ["wikipedia.org", "baike.baidu.com", "britannica.com"] }
  | .academic =>
    { preferredDomains := ["scholar.google.com", "arxiv.org", "ieee.org", "acm.org", "springer.com", "sciencedirect.com"]
      keywordHints := ["论文", "研究", "综述", "期刊", "实验", "方法"]
      keywordHintsEn := ["paper", "study", "survey", "review", "dataset", "method"]
      querySuffixZh := some "论文 研究 综述"
      querySuffixEn := some "paper survey review"
      siteFilters := ["scholar.google.com", "arxiv.org", "ieee.org", "acm.org", "springer.com", "sciencedirect.com"] }
  | .shopping =>
    { preferredDomains := ["taobao.com", "tmall.com", "jd.com", "pinduoduo.com", "amazon.com"]
      keywordHints := ["价格", "多少钱", "优惠", "折扣", "评价", "旗舰店"]
      keywordHintsEn := ["price", "deal", "discount", "review", "official", "store"]
      querySuffixZh := some "价格 多少钱 评价"
      querySuffixEn := some "price review discount"
      siteFilters := ["taobao.com", "tmall.com", "jd.com", "pinduoduo.com"] }
  | .technical =>
    { preferredDomains := ["github.com", "stackoverflow.com", "developer.mozilla.org", "learn.microsoft.com", "nodejs.org", "python.org"]
      keywordHints := ["教程", "文档", "API", "报错", "解决", "示例"]
      keywordHintsEn := ["docs", "api", "guide", "tutorial", "error", "example"]
      querySuffixZh := some "教程 文档 API"
      querySuffixEn := some "docs api tutorial"
      siteFilters := ["github.com", "stackoverflow.com", "developer.mozilla.org", "learn.microsoft.com"] }

/-- The character class `[一-龥]` tested by `detectLanguage`. -/
def isCjkCodeChar (c : Char) : Bool :=
  decide (0x4E00 ≤ c.toNat) && decide (c.toNat ≤ 0x9FA5)

/-- Modelled from the spec: "presence of any CJK ideograph".  A CJK
ideograph means a character of the Unicode CJK Unified Ideographs block
U+4E00..U+9FFF.  This is the spec-side notion compared against the
code's narrower class `isCjkCodeChar` (which stops at U+9FA5). -/
def isCjkIdeograph (c : Char) : Bool :=
  decide (0x4E00 ≤ c.toNat) && decide (c.toNat ≤ 0x9FFF)

/-- Source `detectLanguage` (adaptiveSearch.ts lines 67-70): an explicit
non-`auto` override wins, otherwise any character of `[一-龥]`
makes the query Chinese. -/
def detectLanguage (query : String) (override : Option LangChoice) : Lang :=
  match override with
  | some .zh => .zh
  | some .en => .en
  | _ => if query.data.any isCjkCodeChar then .zh else .en

/-- Case-insensitive test of a literal alternation of cue words against
the query, modelling the goal-detection regexes. -/
def cuesMatch (query : String) (cues : List String) : Bool :=
  cues.any (fun c => containsSubCI query c)

/-- Source `detectGoal` (adaptiveSearch.ts lines 72-84): ordered cue
checks, shopping first, then academic, then technical, else popular.
Each Lean cue list is the union of the source's Chinese-regex and
lowercase-English-regex alternatives (both are case-insensitive
substring tests). -/
def detectGoal (query : String) : SearchGoal :=
  if cuesMatch query ["价格", "多少钱", "优惠", "折扣", "购买", "淘宝", "天猫", "京东", "拼多多",
      "price", "deal", "discount", "buy", "shopping", "store"] then
    .shopping
  else if cuesMatch query ["论文", "研究", "期刊", "综述", "arxiv", "doi",
      "paper", "study", "survey", "review"] then
    .academic
  else if cuesMatch query ["报错", "错误", "bug", "异常", "教程", "文档", "api", "sdk", "源码", "实现",
      "error", "exception", "tutorial", "docs", "implementation"] then
    .technical
  else
    .popular

/-- Caller-supplied extra keywords, source type `string[] | string`. -/
inductive KeywordsOpt where
  | str (s : String)
  | list (l : List String)
deriving DecidableEq, Repr

/-- The extra-keyword normalisation inside `mergeKeywords`: a string is
split on ASCII/fullwidth commas, a list is trimmed, empties dropped. -/
def extraKeywordList : Option KeywordsOpt → List String
  | none => []
  | some (.str s) => ((strSplit (fun c => c = ',' || c = '，') s).map strTrim).filter (fun k => k ≠ "")
  | some (.list l) => (l.map strTrim).filter (fun k => k ≠ "")

/-- Source `mergeKeywords` (adaptiveSearch.ts lines 92-100): goal hints
for the detected language, caller extras, and query tokens of length
more than 1, deduplicated keeping first occurrences. -/
def mergeKeywords (query : String) (config : GoalConfig) (language : Lang)
    (extra : Option KeywordsOpt) : List String :=
  let base := if language = .zh then config.keywordHints else config.keywordHintsEn
  let tokens := ((strSplit Char.isWhitespace query).map strTrim).filter (fun s => 1 < s.length)
  dedupFirst (base ++ extraKeywordList extra ++ tokens)

/-- Source `buildKeywordRegex` (adaptiveSearch.ts lines 86-90): the
`i`-flagged alternation of the escaped non-empty keywords, or `null`
when none remain; modelled as the list of its literal parts. -/
def buildKeywordRegex (keywords : List String) : Option (List String) :=
  let parts := keywords.filter (fun k => k ≠ "")
  if parts = [] then none else some parts

/-- A test of the keyword regex against some text: some part occurs
case-insensitively. -/
def keywordRegexTest (parts : List String) (text : String) : Bool :=
  parts.any (fun k => containsSubCI text k)

/-- Source `buildQuery` (adaptiveSearch.ts lines 102-109).  Round 0 is
the base query verbatim; later rounds append the language's goal suffix
and an OR'd `site:` filter clause.  NOTE: this function is defined by
the source but never invoked by `AdaptiveSearchSkill.search`. -/
def buildQuery (base : String) (config : GoalConfig) (language : Lang)
    (roundIndex : Nat) : String :=
  if roundIndex = 0 then base
  else
    let suffix := (if language = .zh then config.querySuffixZh else config.querySuffixEn).getD ""
    let siteFilters :=
      if config.siteFilters ≠ [] then
        "(" ++ String.intercalate " OR " (config.siteFilters.map (fun site => "site:" ++ site)) ++ ")"
      else ""
    strTrim (String.intercalate " " (([base, suffix, siteFilters].filter (fun s => s ≠ ""))))

/-- The set of hostnames of the parseable result URLs, in first-seen
order; models the `Set` built by `scoreResponse`. -/
def responseDomains (results : List SimpleResult) : List String :=
  dedupFirst (results.filterMap (fun r => urlHostname r.url))

/-- Output of `scoreResponse`. -/
structure ScoreOut where
  hits : Nat
  score : ℚ
deriving DecidableEq, Repr

/-- Source `scoreResponse` (adaptiveSearch.ts lines 114-129): `hits` is
the number of results whose `title snippet` text matches the keyword
regex (all results when there is no regex); the score is
`hits*2 + uniqueDomains*0.3 + min(resultCount,10)*0.1`. -/
def scoreResponse (results : List SimpleResult) (keywordRegex : Option (List String)) : ScoreOut :=
  let hits :=
    match keywordRegex with
    | some parts => (results.filter (fun r => keywordRegexTest parts (r.title ++ " " ++ r.snippet))).length
    | none => results.length
  { hits
    score := (hits : ℚ) * 2 + ((responseDomains results).length : ℚ) * (3 / 10)
      + (min results.length 10 : ℚ) * (1 / 10) }

/-- Source `collectMatchedKeywords` (adaptiveSearch.ts lines 141-153):
keywords (lowercased for English) occurring in the concatenated
result text, first-seen order. -/
def collectMatchedKeywords (results : List SimpleResult) (keywords : List String)
    (language : Lang) : List String :=
  if keywords = [] then []
  else
    let text := String.intercalate " " (results.map (fun r => strTrim (r.title ++ " " ++ r.snippet)))
    let haystack := if language = .en then strToLower text else text
    dedupFirst (keywords.filter (fun k =>
      let needle := if language = .en then strToLower k else k
      needle ≠ "" && containsSub haystack needle))

/-- Result-structure classification, source type
`'list' | 'table' | 'mixed' | 'none'`. -/
inductive StructType where
  | list
  | table
  | mixed
  | none
deriving DecidableEq, Repr

/-- Date separator class of the regex: `-`, `/` or `.`. -/
def isDateSep (c : Char) : Bool :=
  c = '-' || c = '/' || c = '.'

/-- Take exactly `n` leading digits, returning the remaining characters. -/
def takeDigits : Nat → List Char → Option (List Char)
  | 0, l => some l
  | _ + 1, [] => none
  | n + 1, c :: l => if c.isDigit then takeDigits n l else none

/-- After the month's separator the regex needs at least one digit. -/
def dateSepThenDigit : List Char → Bool
  | s :: c :: _ => isDateSep s && c.isDigit
  | _ => false

/-- The one-or-two-digit month, separator, one-or-two-digit day tail
of the date regex, with both month
widths tried as regex backtracking would. -/
def dateMonthDay : List Char → Bool
  | c :: rest =>
    c.isDigit &&
      (dateSepThenDigit rest ||
        match rest with
        | d :: rest2 => d.isDigit && dateSepThenDigit rest2
        | [] => false)
  | [] => false

/-- Match of the full date regex (four digits, separator, one or two
digits, separator, one or two digits) at the start of a character list. -/
def dateFrom (l : List Char) : Bool :=
  match takeDigits 4 l with
  | Option.none => false
  | some l1 =>
    match l1 with
    | s1 :: l2 => isDateSep s1 && dateMonthDay l2
    | [] => false

/-- Unanchored test of the date regex over a string. -/
def hasDatePattern (s : String) : Bool :=
  s.data.tails.any dateFrom

/-- The lowercased non-empty titles, the key multiset of `titleCounts`
in `extractStructureFeatures`. -/
def nonemptyLowerTitles (results : List SimpleResult) : List String :=
  (results.map (fun r => strToLower r.title)).filter (fun t => t ≠ "")

/-- Source `features.duplicateTitles`: the number of distinct
(case-insensitively compared, non-empty) titles occurring more than
once. -/
def duplicateTitles (results : List SimpleResult) : Nat :=
  ((dedupFirst (nonemptyLowerTitles results)).filter
    (fun t => 1 < (nonemptyLowerTitles results).count t)).length

/-- Source `features.emptyFields`: results with any falsy field. -/
def emptyFields (results : List SimpleResult) : Nat :=
  (results.filter (fun r => r.title = "" || r.snippet = "" || r.url = "")).length

/-- Increment the count of `k` in an insertion-ordered association
list, appending a fresh key at the end; models bumping a key of a
plain-object counter. -/
def bumpCount (l : List (String × Nat)) (k : String) : List (String × Nat) :=
  if l.any (fun p => p.1 = k) then
    l.map (fun p => if p.1 = k then (p.1, p.2 + 1) else p)
  else l ++ [(k, 1)]

/-- Source `features.domainDistribution`: hostname frequency of the
parseable result URLs, in first-seen key order. -/
def domainDistribution (results : List SimpleResult) : List (String × Nat) :=
  results.foldl
    (fun acc r =>
      match urlHostname r.url with
      | Option.none => acc
      | some h => bumpCount acc h)
    []

/-- Source `features.uniqueDomains`. -/
def uniqueDomainCount (results : List SimpleResult) : Nat :=
  (domainDistribution results).length

/-- Source `features.averageSnippetLength` (0 for an empty set). -/
def averageSnippetLength (results : List SimpleResult) : ℚ :=
  if results.length = 0 then 0
  else ((results.map (fun r => (r.snippet.length : ℚ))).sum) / (results.length : ℚ)

/-- Source `features.averageTitleLength` (0 for an empty set). -/
def averageTitleLength (results : List SimpleResult) : ℚ :=
  if results.length = 0 then 0
  else ((results.map (fun r => (r.title.length : ℚ))).sum) / (results.length : ℚ)

/-- The additive structural-score bonuses of `analyzeResultStructure`
(adaptiveSearch.ts lines 258-266), in accumulation order. -/
def structuralBonus (hasTitles hasSnippets hasUrls : Bool) (itemCount uniq : Nat)
    (avgSnippet : ℚ) (dups empties : Nat) : ℚ :=
  (if hasTitles then (2 : ℚ) / 10 else 0)
    + (if hasSnippets then (2 : ℚ) / 10 else 0)
    + (if hasUrls then (1 : ℚ) / 10 else 0)
    + (if 0 < itemCount then min ((itemCount : ℚ) / 10) (1 / 10) else 0)
    + (if 2 < uniq then (1 : ℚ) / 10 else 0)
    + (if 50 < avgSnippet then (1 : ℚ) / 10 else 0)
    + (if dups = 0 then (1 : ℚ) / 10 else 0)
    + (if empties = 0 then (1 : ℚ) / 10 else 0)

/-- The snapshot of a result set computed per round, source type
`ResultStructure` (the `features` record is flattened into the fields
the engine reads; the purely narrative fields are not modelled). -/
structure ResultStructure where
  type : StructType
  itemCount : Nat
  hasTitles : Bool
  hasSnippets : Bool
  hasUrls : Bool
  domainDistribution : List (String × Nat)
  relevanceScore : ℚ
  structuralScore : ℚ
  uniqueDomains : Nat
  averageSnippetLength : ℚ
  duplicateTitles : Nat
  emptyFields : Nat
  hasNumbers : Bool
  hasDates : Bool
deriving DecidableEq, Repr

/-- Source `analyzeResultStructure` (adaptiveSearch.ts lines 247-291). -/
def analyzeResultStructure (results : List SimpleResult) (keywords : List String)
    (language : Lang) : ResultStructure :=
  let itemCount := results.length
  let hasTitles := results.any (fun r => strTrim r.title ≠ "")
  let hasSnippets := results.any (fun r => strTrim r.snippet ≠ "")
  let hasUrls := results.any (fun r => strTrim r.url ≠ "")
  let uniq := uniqueDomainCount results
  let avgSnippet := averageSnippetLength results
  let dups := duplicateTitles results
  let empties := emptyFields results
  let matched := collectMatchedKeywords results keywords language
  let relevanceScore : ℚ := (matched.length : ℚ) / (max keywords.length 1 : ℚ)
  let structuralScore := structuralBonus hasTitles hasSnippets hasUrls itemCount uniq avgSnippet dups empties
  let textContent := String.intercalate " " (results.map (fun r => r.title ++ " " ++ r.snippet))
  let hasNumbers := textContent.data.any Char.isDigit
  let hasDates := hasDatePattern textContent
  let type :=
    if itemCount = 0 then StructType.none
    else if hasTitles && hasSnippets && hasUrls && decide (1 < uniq) then StructType.list
    else if hasNumbers && hasDates then StructType.table
    else StructType.mixed
  { type, itemCount, hasTitles, hasSnippets, hasUrls
    domainDistribution := domainDistribution results
    relevanceScore, structuralScore
    uniqueDomains := uniq
    averageSnippetLength := avgSnippet
    duplicateTitles := dups
    emptyFields := empties
    hasNumbers, hasDates }

/-- Qualitative layer, source type `StructureAnalysis` (the localized
strength/weakness/suggestion strings are narrative only and are not
modelled; the source field `structure` is named `struct` here). -/
structure StructureAnalysis where
  struct : ResultStructure
  confidence : ℚ
deriving DecidableEq, Repr

/-- Source `generateStructureAnalysis` (adaptiveSearch.ts lines
293-344): wraps the structure with `confidence = min((relevance +
structural)/2, 1)`. -/
def generateStructureAnalysis (st : ResultStructure) : StructureAnalysis :=
  { struct := st
    confidence := min ((st.relevanceScore + st.structuralScore) / 2) 1 }

/-- Source `optimizeQueryBasedOnStructure` (adaptiveSearch.ts lines
427-458): widen or narrow the base query from the previous round's
structure, then add an official-website cue when the structure was
empty.  The `/ detailed| specific/g` removal is modelled as two
replace-all passes. -/
def optimizeQueryBasedOnStructure (baseQuery : String) (analysis : StructureAnalysis)
    (language : Lang) : String :=
  let q := baseQuery
  let q :=
    if analysis.struct.relevanceScore < 3 / 10 then
      q ++ (if language = .zh then " 详细信息" else " detailed information")
    else if analysis.struct.itemCount < 3 then
      if language = .zh then strReplace (strReplace q " 详细" "") " 具体" ""
      else strReplace (strReplace q " detailed" "") " specific" ""
    else q
  let q :=
    if analysis.struct.type = StructType.none then
      q ++ (if language = .zh then " 官方网站" else " official website")
    else q
  strTrim q

/-- Between-round strategy adjustments, source type of
`adjustSearchStrategyBasedOnStructure`'s result. -/
structure StrategyAdjustments where
  engineChange : Bool
  newEngine : Engine
  pageAdjustment : Bool
  newPageCount : Int
  perPageAdjustment : Bool
  newPerPageCount : Int
deriving DecidableEq, Repr

/-- Source `adjustSearchStrategyBasedOnStructure` (adaptiveSearch.ts
lines 460-491): poor structure switches the engine to baidu, few items
raise page and per-page counts (each field written as the value after
the source's conditional overwrite of its default). -/
def adjustSearchStrategyBasedOnStructure (previous : StructureAnalysis) : StrategyAdjustments :=
  { engineChange := decide (previous.struct.structuralScore < 2 / 5)
    newEngine := if previous.struct.structuralScore < 2 / 5 then Engine.baidu else Engine.bing
    pageAdjustment := decide (previous.struct.itemCount < 5)
    newPageCount := if previous.struct.itemCount < 5 then 3 else 2
    perPageAdjustment := decide (previous.struct.itemCount < 3)
    newPerPageCount := if previous.struct.itemCount < 3 then 15 else 10 }

/-- Outcome of one fetcher call (`webSearchSkill.search` seen from the
round controller): either a result list plus the response's
`fallbackUsed` flag, or the thrown error's message. -/
inductive FetchOutcome where
  | ok (results : List SimpleResult) (fallbackUsed : Bool)
  | err (msg : String)
deriving DecidableEq, Repr

/-- The result list the controller sees: the response's results, or the
empty placeholder response built in the catch branch. -/
def fetchResults : FetchOutcome → List SimpleResult
  | .ok rs _ => rs
  | .err _ => []

/-- The recorded `error` string of a round. -/
def fetchError : FetchOutcome → Option String
  | .ok _ _ => none
  | .err m => some m

/-- The `fallbackUsed` flag the controller sees (false in the catch
branch's placeholder response). -/
def fetchFallbackUsed : FetchOutcome → Bool
  | .ok _ f => f
  | .err _ => false

/-- Caller options of `AdaptiveSearchSkill.search`, source type
`AdaptiveSearchOptions` (the logging, screenshot and pacing fields do
not influence the modelled response and are omitted; `strictKeywords`
and `details` only shape the fetcher call, which is the oracle's
side). -/
structure AdaptiveSearchOptions where
  query : String
  goal : Option SearchGoal := none
  language : Option LangChoice := none
  engine : Option Engine := none
  pages : Option Int := none
  perPage : Option Int := none
  keywords : Option KeywordsOpt := none
  minResults : Option Int := none
  maxRounds : Option Int := none
deriving Repr

/-- `Math.max(1, options.maxRounds ?? 2)`. -/
def adaptiveMaxRounds (opts : AdaptiveSearchOptions) : Int :=
  max 1 (opts.maxRounds.getD 2)

/-- `Math.max(1, options.minResults ?? 6)`. -/
def adaptiveMinResults (opts : AdaptiveSearchOptions) : Int :=
  max 1 (opts.minResults.getD 6)

/-- One attempt's record, source type `AdaptiveSearchRound` (the
`response` field is kept as its result list; the narrative
`thoughtProcess` strings are not modelled). -/
structure AdaptiveSearchRound where
  query : String
  goal : SearchGoal
  engine : Engine
  hits : Nat
  score : ℚ
  matchedKeywords : List String
  topTitles : List String
  notes : List String
  resultCount : Nat
  error : Option String
  roundIndex : Nat
  expandedQuery : Bool
  results : List SimpleResult
  structureAnalysis : StructureAnalysis
  continueReason : Option String
deriving Repr

/-- The request-independent per-run context of the round loop: values
the source computes once before the `for` loop. -/
structure SearchCtx where
  query : String
  goal : SearchGoal
  lang : Lang
  keywordList : List String
  minResults : Int
deriving Repr

/-- Construction of one round's record inside the loop body
(adaptiveSearch.ts lines 632-713): the round-0 query is the original
text, later rounds re-derive it from the previous round's structure
analysis; a throwing fetch yields the placeholder empty response with
`error` recorded. -/
def mkRound (ctx : SearchCtx) (oracle : Nat → FetchOutcome) (i : Nat) (eng : Engine)
    (prev : Option StructureAnalysis) (hasMore : Bool) : AdaptiveSearchRound :=
  let query :=
    match prev with
    | none => ctx.query
    | some pa => optimizeQueryBasedOnStructure ctx.query pa ctx.lang
  let outcome := oracle i
  let results := fetchResults outcome
  let errorMessage := fetchError outcome
  let scored := scoreResponse results (buildKeywordRegex ctx.keywordList)
  let matched := collectMatchedKeywords results ctx.keywordList ctx.lang
  let structure0 := analyzeResultStructure results ctx.keywordList ctx.lang
  let analysis := generateStructureAnalysis structure0
  { query
    goal := ctx.goal
    engine := eng
    hits := scored.hits
    score := scored.score
    matchedKeywords := matched
    topTitles := ((results.take 3).map (fun r => r.title)).filter (fun t => t ≠ "")
    notes :=
      (if 0 < matched.length then ["matchedKeywords=" ++ toString matched.length] else [])
        ++ (if scored.hits = 0 then ["noKeywordHits"] else [])
        ++ (if results.length = 0 then ["noResults"] else [])
        ++ (if fetchFallbackUsed outcome then ["fallbackUsed"] else [])
        ++ (if (fetchError outcome).isSome then ["error"] else [])
    resultCount := results.length
    error := errorMessage
    roundIndex := i
    expandedQuery := 0 < i
    results
    structureAnalysis := analysis
    continueReason :=
      if (scored.hits : Int) < ctx.minResults ∧ hasMore then some "hitsBelowMinResults"
      else none }

/-- The engine for the next round after the strategy adjustment
(adaptiveSearch.ts lines 778-789). -/
def nextEngine (round : AdaptiveSearchRound) (eng : Engine) : Engine :=
  let adj := adjustSearchStrategyBasedOnStructure round.structureAnalysis
  if adj.engineChange then adj.newEngine else eng

/-- The page count for the next round after the strategy adjustment. -/
def nextPages (round : AdaptiveSearchRound) (pg : Int) : Int :=
  let adj := adjustSearchStrategyBasedOnStructure round.structureAnalysis
  if adj.pageAdjustment then adj.newPageCount else pg

/-- The per-page count for the next round after the strategy
adjustment. -/
def nextPerPage (round : AdaptiveSearchRound) (pp : Int) : Int :=
  let adj := adjustSearchStrategyBasedOnStructure round.structureAnalysis
  if adj.perPageAdjustment then adj.newPerPageCount else pp

/-- Rounds produced by the loop together with the stop reason set by a
`break` (the `maxRoundsReached` default is applied after the loop). -/
structure LoopOut where
  rounds : List AdaptiveSearchRound
  stop : Option String
deriving Repr

/-- The `for (let i = 0; i < maxRounds; i += 1)` loop of
`AdaptiveSearchSkill.search` (adaptiveSearch.ts lines 632-790), as a
recursion on the remaining iteration count.  `hits >= minResults`
breaks with `minResultsReached`; otherwise the strategy adjustments are
applied (only while more rounds remain, `i < maxRounds - 1`, mirrored
here by `fuel` not being exhausted) and the loop continues. -/
def searchLoop (ctx : SearchCtx) (oracle : Nat → FetchOutcome) :
    Nat → Nat → Engine → Int → Int → Option StructureAnalysis → LoopOut
  | 0, _, _, _, _, _ => { rounds := [], stop := none }
  | fuel + 1, i, eng, pg, pp, prev =>
    let round := mkRound ctx oracle i eng prev (decide (fuel ≠ 0))
    if ctx.minResults ≤ (round.hits : Int) then
      { rounds := [round], stop := some "minResultsReached" }
    else if fuel = 0 then
      { rounds := [round], stop := none }
    else
      let out := searchLoop ctx oracle fuel (i + 1) (nextEngine round eng)
        (nextPages round pg) (nextPerPage round pp) (some round.structureAnalysis)
      { rounds := round :: out.rounds, stop := out.stop }

/-- The running best-round fold of the loop: `score > bestRound.score`
replaces the best (strict, so ties keep the earlier round); the paired
index models `rounds.indexOf(bestRound)`, which under JavaScript object
identity is the position at which the best round was pushed. -/
def pickBestAux : List AdaptiveSearchRound → Nat → AdaptiveSearchRound × Nat →
    AdaptiveSearchRound × Nat
  | [], _, acc => acc
  | r :: rs, i, (b, bi) =>
    pickBestAux rs (i + 1) (if b.score < r.score then (r, i) else (b, bi))

/-- Best-round selection over the full history (`bestRound` starts as
`null`, so the first round is always taken). -/
def pickBest : List AdaptiveSearchRound → Option (AdaptiveSearchRound × Nat)
  | [] => none
  | r :: rs => some (pickBestAux rs 1 (r, 0))

/-- Terminal output, source type `AdaptiveSearchResponse` (trends,
progressive optimizations, decision reason and log bookkeeping are
derived narrative/logging data not modelled). -/
structure AdaptiveSearchResponse where
  goal : SearchGoal
  language : Lang
  rounds : List AdaptiveSearchRound
  best : Option AdaptiveSearchRound
  bestRoundIndex : Int
  stopReason : String
deriving Repr

/-- The `language` binding of `AdaptiveSearchSkill.search`. -/
def runLang (opts : AdaptiveSearchOptions) : Lang :=
  detectLanguage opts.query opts.language

/-- The `detectedGoal` binding of `AdaptiveSearchSkill.search`: an
explicit non-`auto` goal bypasses detection. -/
def runGoal (opts : AdaptiveSearchOptions) : SearchGoal :=
  match opts.goal with
  | some g => if g = SearchGoal.auto then detectGoal opts.query else g
  | none => detectGoal opts.query

/-- The `keywordList` binding of `AdaptiveSearchSkill.search`. -/
def runKeywordList (opts : AdaptiveSearchOptions) : List String :=
  mergeKeywords opts.query (goalConfig (runGoal opts)) (runLang opts) opts.keywords

/-- The per-run context assembled before the round loop. -/
def runCtx (opts : AdaptiveSearchOptions) : SearchCtx :=
  { query := opts.query
    goal := runGoal opts
    lang := runLang opts
    keywordList := runKeywordList opts
    minResults := adaptiveMinResults opts }

/-- The full round loop of one run, started at round 0 with the
caller's (or default) engine and page parameters. -/
def runLoopOut (opts : AdaptiveSearchOptions) (oracle : Nat → FetchOutcome) : LoopOut :=
  searchLoop (runCtx opts) oracle (adaptiveMaxRounds opts).toNat 0
    (opts.engine.getD Engine.bing) (opts.pages.getD 2) (opts.perPage.getD 10) none

/-- The body of `AdaptiveSearchSkill.search` after the required-query
check (adaptiveSearch.ts lines 605-886). -/
def adaptiveSearchRun (opts : AdaptiveSearchOptions) (oracle : Nat → FetchOutcome) :
    AdaptiveSearchResponse :=
  { goal := runGoal opts
    language := runLang opts
    rounds := (runLoopOut opts oracle).rounds
    best := (pickBest (runLoopOut opts oracle).rounds).map Prod.fst
    bestRoundIndex :=
      match pickBest (runLoopOut opts oracle).rounds with
      | some p => (p.2 : Int)
      | none => -1
    stopReason := (runLoopOut opts oracle).stop.getD "maxRoundsReached" }

/-- Source `AdaptiveSearchSkill.search`: a missing (empty) query throws
`ConfigurationError`; otherwise the run above is returned. -/
def adaptiveSearch (opts : AdaptiveSearchOptions) (oracle : Nat → FetchOutcome) :
    Except String AdaptiveSearchResponse :=
  if opts.query = "" then Except.error "AdaptiveSearchOptions.query is required."
  else Except.ok (adaptiveSearchRun opts oracle)

/-- A record extracted from one results page by the site driver
(title/snippet/link field triple of the extraction profile). -/
structure RawItem where
  title : String
  snippet : String
  link : String
deriving DecidableEq, Repr

/-- Outcome of one `searchSkill.searchOnSite` page fetch inside the
web-search loop: the extracted records, or the thrown error's message. -/
inductive PageFetch where
  | ok (items : List RawItem)
  | err (msg : String)
deriving DecidableEq, Repr

/-- Caller options of `WebSearchSkill.search`, source type
`WebSearchOptions` (screenshot/trace fields are logging-only and
omitted). -/
structure WebSearchOptions where
  engine : Option Engine := none
  query : Option String := none
  pages : Option Int := none
  perPage : Option Int := none
  details : Option Int := none
  preferredDomains : Option (List String) := none
  keywords : Option KeywordsOpt := none
  baikeUrl : Option String := none
deriving Repr

/-- Source `toInt`: `parseInt(String(value))` with a default for
non-finite parses; on the integer-or-absent options modelled here this
is just the default fill. -/
def toInt (value : Option Int) (defaultValue : Int) : Int :=
  value.getD defaultValue

/-- Source `buildKeywordRegex` of the web-search fetcher: an unflagged
regex from the keyword parts (an array joins its trimmed non-empty
members, a string is used whole); modelled as the literal part list,
`none` when the filter is absent. -/
def wsKeywordRegex : Option KeywordsOpt → Option (List String)
  | none => none
  | some (.list l) =>
    let parts := (l.map strTrim).filter (fun k => k ≠ "")
    if parts = [] then none else some parts
  | some (.str s) =>
    let text := strTrim s
    if text = "" then none else some [text]

/-- Case-sensitive test of the fetcher's keyword regex (it is built
without the `i` flag). -/
def wsKeywordTest (parts : List String) (text : String) : Bool :=
  parts.any (fun k => containsSub text k)

/-- Source `scoreByDomain` walking the preferred-domain list: the first
host match (exact or dot-suffix) at index `i` scores `length - i`;
`n` carries that remaining value. -/
def scoreByDomainAux (host : String) : List String → Nat → Int
  | [], _ => 0
  | d :: rest, n =>
    let dl := strToLower d
    if host = dl || strEndsWith host ("." ++ dl) then (n : Int)
    else scoreByDomainAux host rest (n - 1)

/-- Source `scoreByDomain` (web-search fetcher): preferred-domain rank
of a URL's hostname, 0 for unparseable or unlisted hosts. -/
def scoreByDomain (url : String) (preferredDomains : List String) : Int :=
  if url = "" then 0
  else
    match urlHostname url with
    | none => 0
    | some h => scoreByDomainAux (strToLower h) preferredDomains preferredDomains.length

/-- The per-item normalisation and filtering of one extracted page
(web-search fetcher collection loop): trim fields, decode bing
indirection links, drop records without title or url, apply the keyword
filter, and deduplicate by url. -/
def processItems (engine : Engine) (kw : Option (List String)) (decodeUrl : String → String)
    (items : List RawItem) (seen : List String) (acc : List SimpleResult) :
    List String × List SimpleResult :=
  items.foldl
    (fun p item =>
      let title := strTrim item.title
      let snippet := strTrim item.snippet
      let rawLink := strTrim item.link
      let url := if engine = Engine.bing then decodeUrl rawLink else rawLink
      if title = "" || url = "" then p
      else if (match kw with
        | some parts => !(wsKeywordTest parts (title ++ " " ++ snippet))
        | none => false) then p
      else if url ∈ p.1 then p
      else (p.1 ++ [url], p.2 ++ [⟨title, snippet, url⟩]))
    (seen, acc)

/-- The page loop of `WebSearchSkill.search`: fetch each page in order,
break on the first page error, accumulate the seen-url set and the
collected results. -/
def collectLoop (fetchPage : Nat → PageFetch) (engine : Engine) (kw : Option (List String))
    (decodeUrl : String → String) :
    Nat → Nat → List String → List SimpleResult → List SimpleResult
  | 0, _, _, acc => acc
  | fuel + 1, pageIndex, seen, acc =>
    match fetchPage pageIndex with
    | .err _ => acc
    | .ok items =>
      let p := processItems engine kw decodeUrl items seen acc
      collectLoop fetchPage engine kw decodeUrl fuel (pageIndex + 1) p.1 p.2

/-- One opened detail page, source type `WebSearchOpened`. -/
structure OpenedPage where
  title : String
  url : String
  summary : String
deriving DecidableEq, Repr

/-- Fetcher response, source type `WebSearchResponse`. -/
structure WebSearchResponse where
  engine : Engine
  query : Option String
  results : List SimpleResult
  opened : List OpenedPage
  fallbackUsed : Bool
deriving Repr

/-- The hard-coded fallback encyclopedia entry URL. -/
def defaultBaikeUrl : String :=
  "https://baike.baidu.com/item/%E8%9A%82%E8%9A%81/9770178"

/-- `Math.max(0, toInt(options.details, 0))`, the click-through budget
of one fetcher call. -/
def wsDetails (opts : WebSearchOptions) : Int :=
  max 0 (toInt opts.details 0)

/-- The opened entry built for one successfully collected result: the
page summary, or the `[open failed]` marker when opening throws. -/
def openEntry (summarize : String → Except String String) (item : SimpleResult) : OpenedPage :=
  match summarize item.url with
  | Except.ok s => { title := item.title, url := item.url, summary := s }
  | Except.error m => { title := item.title, url := item.url, summary := "[open failed] " ++ m }

/-- The fallback opened entry appended when no results were collected
(its open failure is caught and recorded in the summary). -/
def fallbackEntry (summarize : String → Except String String) (baikeUrl : String) : OpenedPage :=
  match summarize baikeUrl with
  | Except.ok s => { title := "百度百科：蚂蚁", url := baikeUrl, summary := s }
  | Except.error m => { title := "百度百科：蚂蚁", url := baikeUrl, summary := "[open failed] " ++ m }

/-- The collection loop output of a search-engine call.  `fetchPage` is
the per-page site-interaction oracle and `decodeUrl` stands for
`decodeBingUrl` (a pure URL rewrite whose base64 internals are not
needed by any claim). -/
def wsCollected (opts : WebSearchOptions) (fetchPage : Nat → PageFetch)
    (decodeUrl : String → String) : List SimpleResult :=
  collectLoop fetchPage (opts.engine.getD Engine.bing) (wsKeywordRegex opts.keywords) decodeUrl
    (max 1 (toInt opts.pages 2)).toNat 0 [] []

/-- The collected results in preferred-domain order (`Array.sort` with
the `scoreB - scoreA` comparator is a stable descending sort). -/
def wsSorted (opts : WebSearchOptions) (fetchPage : Nat → PageFetch)
    (decodeUrl : String → String) : List SimpleResult :=
  sortDescStable
    (fun r => scoreByDomain r.url (opts.preferredDomains.getD ["wikipedia.org", "baike.baidu.com"]))
    (wsCollected opts fetchPage decodeUrl)

/-- The opened list of a search-engine call: the top `details` results
opened and summarised when the budget is positive, plus the
encyclopedia fallback entry when nothing was collected. -/
def wsOpened (opts : WebSearchOptions) (fetchPage : Nat → PageFetch)
    (summarize : String → Except String String) (decodeUrl : String → String) :
    List OpenedPage :=
  (if 0 < wsDetails opts then
    ((wsSorted opts fetchPage decodeUrl).take (wsDetails opts).toNat).map (openEntry summarize)
  else [])
    ++ (if (wsSorted opts fetchPage decodeUrl).length = 0 then
      [fallbackEntry summarize (opts.baikeUrl.getD defaultBaikeUrl)]
    else [])

/-- The search-engine path of `WebSearchSkill.search` (everything after
the baike branch and the required-query check): collect pages, order by
preferred-domain score, open the top `details` results, and fall back
to the encyclopedia entry when nothing was collected.  `summarize` is
the page-opening oracle. -/
def webSearchEngines (opts : WebSearchOptions) (fetchPage : Nat → PageFetch)
    (summarize : String → Except String String) (decodeUrl : String → String) :
    WebSearchResponse :=
  { engine := opts.engine.getD Engine.bing
    query := opts.query
    results := wsSorted opts fetchPage decodeUrl
    opened := wsOpened opts fetchPage summarize decodeUrl
    fallbackUsed := decide ((wsSorted opts fetchPage decodeUrl).length = 0) }

/-- Source `WebSearchSkill.search`: the baike engine immediately opens
the configured encyclopedia page (an open failure there is uncaught and
thrown); other engines require a query and run the collection path. -/
def webSearch (opts : WebSearchOptions) (fetchPage : Nat → PageFetch)
    (summarize : String → Except String String) (decodeUrl : String → String) :
    Except String WebSearchResponse :=
  let engine := opts.engine.getD Engine.bing
  if engine = Engine.baike then
    let baikeUrl := opts.baikeUrl.getD defaultBaikeUrl
    match summarize baikeUrl with
    | Except.error e => Except.error e
    | Except.ok s =>
      Except.ok
        { engine
          query := opts.query
          results := []
          opened := [{ title := "百度百科：蚂蚁", url := baikeUrl, summary := s }]
          fallbackUsed := true }
  else if opts.query.getD "" = "" then
    Except.error "WebSearchOptions.query is required for search engines"
  else
    Except.ok (webSearchEngines opts fetchPage summarize decodeUrl)

/-- Human-intervention mode of the site driver, source
`pauseForHumanMode` after the TTY fallback. -/
inductive PauseMode where
  | auto
  | enter
deriving DecidableEq, Repr

/-- What `searchOnSite` does when the results indicator never became
visible (search.ts lines 444-516): hand over to the operator (enter
loop or long auto-poll), throw the blocked error, or rethrow the
original wait error. -/
inductive WaitFailureOutcome where
  | humanEnterLoop
  | humanAutoPoll
  | blockedError
  | rethrowOriginal
deriving DecidableEq, Repr

/-- The login/verification/captcha vocabulary of `isLikelyBlocked`'s
text locator. -/
def blockVocabulary : List String :=
  ["验证码", "人机验证", "请完成验证", "安全验证", "captcha"]

/-- Source `isLikelyBlocked` (search.ts lines 209-220): a risk-handler
redirect URL, or visible text matching the blocked vocabulary.  The
page state is modelled by its current URL and visible text. -/
def isLikelyBlocked (url : String) (visibleText : String) : Bool :=
  containsSubCI url "risk_handler"
    || blockVocabulary.any (fun w => containsSubCI visibleText w)

/-- The failure-handling branch of `searchOnSite` after
`waitForSelector(resultsWaitFor)` throws (search.ts lines 450-515):
with `pauseForHuman` the operator path is taken (enter loop on an
interactive channel, else the long auto-poll); without it a detected
block throws the blocked error at once and anything else rethrows the
original error. -/
def handleResultsWaitFailure (pauseForHuman detectBlockers : Bool) (pauseMode : PauseMode)
    (url visibleText : String) : WaitFailureOutcome :=
  let blocked := (pauseForHuman || detectBlockers) && isLikelyBlocked url visibleText
  if pauseForHuman then
    if pauseMode = PauseMode.enter then WaitFailureOutcome.humanEnterLoop
    else WaitFailureOutcome.humanAutoPoll
  else if blocked then WaitFailureOutcome.blockedError
  else WaitFailureOutcome.rethrowOriginal

/-- `b` is the first-seen round of maximal score in `rounds`, at
position `bi`: everything before it scores strictly less and everything
after it scores no more. -/
def IsFirstMax (rounds : List AdaptiveSearchRound) (b : AdaptiveSearchRound) (bi : Nat) : Prop :=
  ∃ l1 l2, rounds = l1 ++ b :: l2 ∧ bi = l1.length ∧
    (∀ r ∈ l1, r.score < b.score) ∧ (∀ r ∈ l2, r.score ≤ b.score)

/-- The fields of a recorded round are the ones the loop body computes
from the oracle's outcome at the round's own index. -/
def RoundWF (ctx : SearchCtx) (oracle : Nat → FetchOutcome) (r : AdaptiveSearchRound) : Prop :=
  r.results = fetchResults (oracle r.roundIndex) ∧
  r.error = fetchError (oracle r.roundIndex) ∧
  r.hits = (scoreResponse r.results (buildKeywordRegex ctx.keywordList)).hits ∧
  r.score = (scoreResponse r.results (buildKeywordRegex ctx.keywordList)).score ∧
  r.resultCount = r.results.length ∧
  r.structureAnalysis =
    generateStructureAnalysis (analyzeResultStructure r.results ctx.keywordList ctx.lang) ∧
  r.goal = ctx.goal

/-- Concrete run options: two rounds of an English query. -/
def twoRoundOpts : AdaptiveSearchOptions :=
  { query := "hello", maxRounds := some 2 }

/-- Concrete oracle: every fetch succeeds with no results. -/
def emptyOracle : Nat → FetchOutcome := fun _ => FetchOutcome.ok [] false

/-- Concrete run options: a query whose own token is a scoring keyword,
with the minimum-result threshold at 1. -/
def quickStopOpts : AdaptiveSearchOptions :=
  { query := "hi", minResults := some 1 }

/-- Concrete oracle: one result that matches the query token. -/
def oneHitOracle : Nat → FetchOutcome :=
  fun _ => FetchOutcome.ok [⟨"hi there", "what is hi", "http://a.com/"⟩] false

/-- Concrete run options exercising the clamps: non-positive caller
limits. -/
def clampedOpts : AdaptiveSearchOptions :=
  { query := "hi", maxRounds := some (-3), minResults := some 0 }

/-- Concrete oracle whose first fetch throws a navigation timeout. -/
def failingOracle : Nat → FetchOutcome :=
  fun i => if i = 0 then FetchOutcome.err "navigation timeout" else FetchOutcome.ok [] false

/-- A result set meeting the literal reading of the C6 hypotheses
(non-empty fields, three domains, pairwise-distinct titles) whose first
two titles coincide after lowercasing. -/
def caseCollidingResults : List SimpleResult :=
  [⟨"A", "x", "http://a.com/"⟩, ⟨"a", "y", "http://b.com/"⟩, ⟨"B", "z", "http://c.com/"⟩]

/-- A result set with non-empty fields, three domains and titles that
stay distinct after lowercasing. -/
def cleanResults : List SimpleResult :=
  [⟨"A", "x", "http://a.com/"⟩, ⟨"b", "y", "http://b.com/"⟩, ⟨"C", "z", "http://c.com/"⟩]

/-- A 60-character snippet, long enough for the mean-length bonus. -/
def longSnippet : String :=
  "abcdefghijklmnopqrstuvwxyzabcdefghijklmnopqrstuvwxyzabcdefgh"

/-- A result set on which every structural bonus fires at once. -/
def allBonusResults : List SimpleResult :=
  [⟨"A", longSnippet, "http://a.com/"⟩, ⟨"b", longSnippet, "http://b.com/"⟩,
    ⟨"C", longSnippet, "http://c.com/"⟩]

/-- Fetcher options: a bing search with a zero click-through budget. -/
def bingNoDetailsOpts : WebSearchOptions :=
  { engine := some Engine.bing, query := some "q", details := some 0 }

/-- Fetcher options: the baike engine with a zero click-through budget. -/
def baikeNoDetailsOpts : WebSearchOptions :=
  { engine := some Engine.baike, details := some 0 }

/-- Concrete page oracle: every page yields the same single record. -/
def onePageFetch : Nat → PageFetch :=
  fun _ => PageFetch.ok [⟨"t", "s", "http://a.com/"⟩]

/-- Concrete page-opening oracle: summarisation always succeeds. -/
def okSummarize : String → Except String String := fun _ => Except.ok "summary"

/-! Helper lemmas. -/

theorem mkRound_engine (ctx : SearchCtx) (oracle : Nat → FetchOutcome) (i : Nat) (eng : Engine)
    (prev : Option StructureAnalysis) (hm : Bool) :
    (mkRound ctx oracle i eng prev hm).engine = eng := rfl

theorem mkRound_roundIndex (ctx : SearchCtx) (oracle : Nat → FetchOutcome) (i : Nat) (eng : Engine)
    (prev : Option StructureAnalysis) (hm : Bool) :
    (mkRound ctx oracle i eng prev hm).roundIndex = i := rfl

theorem mkRound_query (ctx : SearchCtx) (oracle : Nat → FetchOutcome) (i : Nat) (eng : Engine)
    (prev : Option StructureAnalysis) (hm : Bool) :
    (mkRound ctx oracle i eng prev hm).query =
      match prev with
      | none => ctx.query
      | some pa => optimizeQueryBasedOnStructure ctx.query pa ctx.lang := rfl

theorem mkRound_wf (ctx : SearchCtx) (oracle : Nat → FetchOutcome) (i : Nat) (eng : Engine)
    (prev : Option StructureAnalysis) (hm : Bool) :
    RoundWF ctx oracle (mkRound ctx oracle i eng prev hm) := by
  refine ⟨rfl, rfl, rfl, rfl, rfl, rfl, rfl⟩

theorem structuralBonus_le_one (hasTitles hasSnippets hasUrls : Bool) (itemCount uniq : Nat)
    (avgSnippet : ℚ) (dups empties : Nat) :
    structuralBonus hasTitles hasSnippets hasUrls itemCount uniq avgSnippet dups empties ≤ 1 := by
  unfold structuralBonus
  have h1 : (if hasTitles then (2 : ℚ) / 10 else 0) ≤ 2 / 10 := by split <;> norm_num
  have h2 : (if hasSnippets then (2 : ℚ) / 10 else 0) ≤ 2 / 10 := by split <;> norm_num
  have h3 : (if hasUrls then (1 : ℚ) / 10 else 0) ≤ 1 / 10 := by split <;> norm_num
  have h4 : (if 0 < itemCount then min ((itemCount : ℚ) / 10) (1 / 10) else 0) ≤ 1 / 10 := by
    split
    · exact min_le_right _ _
    · norm_num
  have h5 : (if 2 < uniq then (1 : ℚ) / 10 else 0) ≤ 1 / 10 := by split <;> norm_num
  have h6 : (if 50 < avgSnippet then (1 : ℚ) / 10 else 0) ≤ 1 / 10 := by split <;> norm_num
  have h7 : (if dups = 0 then (1 : ℚ) / 10 else 0) ≤ 1 / 10 := by split <;> norm_num
  have h8 : (if empties = 0 then (1 : ℚ) / 10 else 0) ≤ 1 / 10 := by split <;> norm_num
  linarith

theorem analyze_structuralScore (results : List SimpleResult) (keywords : List String)
    (language : Lang) :
    (analyzeResultStructure results keywords language).structuralScore =
      structuralBonus (results.any (fun r => strTrim r.title ≠ ""))
        (results.any (fun r => strTrim r.snippet ≠ "")) (results.any (fun r => strTrim r.url ≠ ""))
        results.length (uniqueDomainCount results) (averageSnippetLength results)
        (duplicateTitles results) (emptyFields results) := rfl

theorem structuralScore_le_one (results : List SimpleResult) (keywords : List String)
    (language : Lang) :
    (analyzeResultStructure results keywords language).structuralScore ≤ 1 := by
  rw [analyze_structuralScore]
  exact structuralBonus_le_one _ _ _ _ _ _ _ _

theorem analyze_nil_structuralScore (keywords : List String) (language : Lang) :
    (analyzeResultStructure [] keywords language).structuralScore = 1 / 5 := by
  rw [analyze_structuralScore]
  norm_num [structuralBonus, uniqueDomainCount, domainDistribution, averageSnippetLength,
    duplicateTitles, nonemptyLowerTitles, dedupFirst, emptyFields]

theorem pickBestAux_spec (ctxl : List AdaptiveSearchRound) :
    ∀ (pre : List AdaptiveSearchRound) (b : AdaptiveSearchRound) (bi : Nat),
      IsFirstMax pre b bi →
      IsFirstMax (pre ++ ctxl) (pickBestAux ctxl pre.length (b, bi)).1
        (pickBestAux ctxl pre.length (b, bi)).2 := by
  induction ctxl with
  | nil =>
    intro pre b bi h
    simpa [pickBestAux] using h
  | cons r rs ih =>
    intro pre b bi h
    obtain ⟨l1, l2, hsplit, hbi, hlt, hle⟩ := h
    have hstep : IsFirstMax (pre ++ [r])
        (if b.score < r.score then (r, pre.length) else (b, bi)).1
        (if b.score < r.score then (r, pre.length) else (b, bi)).2 := by
      by_cases hcmp : b.score < r.score
      · refine ⟨pre, [], by simp [if_pos hcmp], by simp [if_pos hcmp], ?_, by simp⟩
        intro x hx
        rw [if_pos hcmp]
        rw [hsplit] at hx
        rcases List.mem_append.mp hx with hx1 | hx2
        · exact lt_trans (hlt x hx1) hcmp
        · rcases List.mem_cons.mp hx2 with rfl | hx3
          · exact hcmp
          · exact lt_of_le_of_lt (hle x hx3) hcmp
      · refine ⟨l1, l2 ++ [r], ?_, by simp [if_neg hcmp, hbi], ?_, ?_⟩
        · rw [if_neg hcmp, hsplit]
          simp
        · intro x hx
          rw [if_neg hcmp]
          exact hlt x hx
        · intro x hx
          rw [if_neg hcmp]
          rcases List.mem_append.mp hx with hx1 | hx2
          · exact hle x hx1
          · rcases List.mem_cons.mp hx2 with rfl | hx3
            · exact le_of_not_lt hcmp
            · cases hx3
    have := ih (pre ++ [r])
      (if b.score < r.score then (r, pre.length) else (b, bi)).1
      (if b.score < r.score then (r, pre.length) else (b, bi)).2 hstep
    have hlen : (pre ++ [r]).length = pre.length + 1 := by simp
    rw [hlen] at this
    rw [List.append_assoc] at this
    simp only [List.singleton_append] at this
    simpa [pickBestAux] using this

theorem pickBest_spec (rounds : List AdaptiveSearchRound) (hne : rounds ≠ []) :
    ∃ b bi, pickBest rounds = some (b, bi) ∧ IsFirstMax rounds b bi := by
  match rounds, hne with
  | r :: rs, _ =>
    have h0 : IsFirstMax [r] r 0 := ⟨[], [], rfl, rfl, by simp, by simp⟩
    have := pickBestAux_spec rs [r] r 0 h0
    simp only [List.singleton_append, List.length_singleton] at this
    exact ⟨_, _, rfl, this⟩

theorem searchLoop_head (ctx : SearchCtx) (oracle : Nat → FetchOutcome) (fuel i : Nat)
    (eng : Engine) (pg pp : Int) (prev : Option StructureAnalysis) :
    ∃ rest, (searchLoop ctx oracle (fuel + 1) i eng pg pp prev).rounds
      = mkRound ctx oracle i eng prev (decide (fuel ≠ 0)) :: rest := by
  by_cases hstop :
      ctx.minResults ≤ ((mkRound ctx oracle i eng prev (decide (fuel ≠ 0))).hits : Int)
  · exact ⟨[], by simp only [searchLoop]; rw [if_pos hstop]⟩
  · by_cases hk : fuel = 0
    · refine ⟨[], ?_⟩
      simp only [searchLoop]
      rw [if_neg hstop, if_pos hk]
    · refine ⟨(searchLoop ctx oracle fuel (i + 1)
        (nextEngine (mkRound ctx oracle i eng prev (decide (fuel ≠ 0))) eng)
        (nextPages (mkRound ctx oracle i eng prev (decide (fuel ≠ 0))) pg)
        (nextPerPage (mkRound ctx oracle i eng prev (decide (fuel ≠ 0))) pp)
        (some (mkRound ctx oracle i eng prev (decide (fuel ≠ 0))).structureAnalysis)).rounds, ?_⟩
      simp only [searchLoop]
      rw [if_neg hstop, if_neg hk]

theorem searchLoop_succ_cases (ctx : SearchCtx) (oracle : Nat → FetchOutcome) (fuel i : Nat)
    (eng : Engine) (pg pp : Int) (prev : Option StructureAnalysis) (round : AdaptiveSearchRound)
    (hr : round = mkRound ctx oracle i eng prev (decide (fuel ≠ 0))) :
    (ctx.minResults ≤ (round.hits : Int) ∧
      searchLoop ctx oracle (fuel + 1) i eng pg pp prev
        = { rounds := [round], stop := some "minResultsReached" })
    ∨ (¬ctx.minResults ≤ (round.hits : Int) ∧ fuel = 0 ∧
      searchLoop ctx oracle (fuel + 1) i eng pg pp prev = { rounds := [round], stop := none })
    ∨ (¬ctx.minResults ≤ (round.hits : Int) ∧ 0 < fuel ∧
      searchLoop ctx oracle (fuel + 1) i eng pg pp prev =
        { rounds := round :: (searchLoop ctx oracle fuel (i + 1) (nextEngine round eng)
            (nextPages round pg) (nextPerPage round pp) (some round.structureAnalysis)).rounds,
          stop := (searchLoop ctx oracle fuel (i + 1) (nextEngine round eng)
            (nextPages round pg) (nextPerPage round pp) (some round.structureAnalysis)).stop }) := by
  subst hr
  by_cases hstop :
      ctx.minResults ≤ ((mkRound ctx oracle i eng prev (decide (fuel ≠ 0))).hits : Int)
  · left
    exact ⟨hstop, by simp only [searchLoop]; rw [if_pos hstop]⟩
  · by_cases hk : fuel = 0
    · right; left
      refine ⟨hstop, hk, ?_⟩
      simp only [searchLoop]
      rw [if_neg hstop, if_pos hk]
    · right; right
      refine ⟨hstop, Nat.pos_of_ne_zero hk, ?_⟩
      simp only [searchLoop]
      rw [if_neg hstop, if_neg hk]

theorem searchLoop_wf (ctx : SearchCtx) (oracle : Nat → FetchOutcome) :
    ∀ (fuel i : Nat) (eng : Engine) (pg pp : Int) (prev : Option StructureAnalysis),
      ∀ r ∈ (searchLoop ctx oracle fuel i eng pg pp prev).rounds, RoundWF ctx oracle r := by
  intro fuel
  induction fuel with
  | zero =>
    intro i eng pg pp prev r hr
    simp [searchLoop] at hr
  | succ k ih =>
    intro i eng pg pp prev r hr
    rcases searchLoop_succ_cases ctx oracle k i eng pg pp prev _ rfl with
      ⟨_, heq⟩ | ⟨_, _, heq⟩ | ⟨_, _, heq⟩
    · rw [heq] at hr
      simp only [List.mem_singleton] at hr
      exact hr ▸ mkRound_wf ctx oracle i eng prev _
    · rw [heq] at hr
      simp only [List.mem_singleton] at hr
      exact hr ▸ mkRound_wf ctx oracle i eng prev _
    · rw [heq] at hr
      rcases List.mem_cons.mp hr with rfl | hr2
      · exact mkRound_wf ctx oracle i eng prev _
      · exact ih (i + 1) _ _ _ _ r hr2

theorem searchLoop_roundIndex (ctx : SearchCtx) (oracle : Nat → FetchOutcome) :
    ∀ (fuel i : Nat) (eng : Engine) (pg pp : Int) (prev : Option StructureAnalysis),
      ((searchLoop ctx oracle fuel i eng pg pp prev).rounds).map (fun r => r.roundIndex)
        = List.range' i (searchLoop ctx oracle fuel i eng pg pp prev).rounds.length := by
  intro fuel
  induction fuel with
  | zero =>
    intro i eng pg pp prev
    simp [searchLoop]
  | succ k ih =>
    intro i eng pg pp prev
    rcases searchLoop_succ_cases ctx oracle k i eng pg pp prev _ rfl with
      ⟨_, heq⟩ | ⟨_, _, heq⟩ | ⟨_, _, heq⟩
    · rw [heq]
      simp [List.range', mkRound_roundIndex]
    · rw [heq]
      simp [List.range', mkRound_roundIndex]
    · rw [heq]
      simp only [List.map_cons, List.length_cons, mkRound_roundIndex, List.range']
      exact congrArg (List.cons i) (ih (i + 1) _ _ _ _)

theorem searchLoop_engine_chain (ctx : SearchCtx) (oracle : Nat → FetchOutcome) :
    ∀ (fuel i : Nat) (eng : Engine) (pg pp : Int) (prev : Option StructureAnalysis),
      List.Chain' (fun a b => b.engine = nextEngine a a.engine)
        (searchLoop ctx oracle fuel i eng pg pp prev).rounds := by
  intro fuel
  induction fuel with
  | zero =>
    intro i eng pg pp prev
    simp [searchLoop]
  | succ k ih =>
    intro i eng pg pp prev
    rcases searchLoop_succ_cases ctx oracle k i eng pg pp prev _ rfl with
      ⟨_, heq⟩ | ⟨_, _, heq⟩ | ⟨_, hk, heq⟩
    · rw [heq]
      exact List.chain'_singleton _
    · rw [heq]
      exact List.chain'_singleton _
    · rw [heq]
      refine List.chain'_cons'.mpr ⟨?_, ih (i + 1) _ _ _ _⟩
      intro y hy
      obtain ⟨k1, rfl⟩ : ∃ k1, k = k1 + 1 := ⟨k - 1, (Nat.succ_pred_eq_of_pos hk).symm⟩
      obtain ⟨rest, hrest⟩ := searchLoop_head ctx oracle k1 (i + 1)
        (nextEngine (mkRound ctx oracle i eng prev (decide (k1 + 1 ≠ 0))) eng)
        (nextPages (mkRound ctx oracle i eng prev (decide (k1 + 1 ≠ 0))) pg)
        (nextPerPage (mkRound ctx oracle i eng prev (decide (k1 + 1 ≠ 0))) pp)
        (some (mkRound ctx oracle i eng prev (decide (k1 + 1 ≠ 0))).structureAnalysis)
      rw [hrest] at hy
      simp only [List.head?_cons, Option.mem_def, Option.some.injEq] at hy
      rw [← hy, mkRound_engine, mkRound_engine]

theorem searchLoop_query_chain (ctx : SearchCtx) (oracle : Nat → FetchOutcome) :
    ∀ (fuel i : Nat) (eng : Engine) (pg pp : Int) (prev : Option StructureAnalysis),
      List.Chain'
        (fun a b => b.query = optimizeQueryBasedOnStructure ctx.query a.structureAnalysis ctx.lang)
        (searchLoop ctx oracle fuel i eng pg pp prev).rounds := by
  intro fuel
  induction fuel with
  | zero =>
    intro i eng pg pp prev
    simp [searchLoop]
  | succ k ih =>
    intro i eng pg pp prev
    rcases searchLoop_succ_cases ctx oracle k i eng pg pp prev _ rfl with
      ⟨_, heq⟩ | ⟨_, _, heq⟩ | ⟨_, hk, heq⟩
    · rw [heq]
      exact List.chain'_singleton _
    · rw [heq]
      exact List.chain'_singleton _
    · rw [heq]
      refine List.chain'_cons'.mpr ⟨?_, ih (i + 1) _ _ _ _⟩
      intro y hy
      obtain ⟨k1, rfl⟩ : ∃ k1, k = k1 + 1 := ⟨k - 1, (Nat.succ_pred_eq_of_pos hk).symm⟩
      obtain ⟨rest, hrest⟩ := searchLoop_head ctx oracle k1 (i + 1)
        (nextEngine (mkRound ctx oracle i eng prev (decide (k1 + 1 ≠ 0))) eng)
        (nextPages (mkRound ctx oracle i eng prev (decide (k1 + 1 ≠ 0))) pg)
        (nextPerPage (mkRound ctx oracle i eng prev (decide (k1 + 1 ≠ 0))) pp)
        (some (mkRound ctx oracle i eng prev (decide (k1 + 1 ≠ 0))).structureAnalysis)
      rw [hrest] at hy
      simp only [List.head?_cons, Option.mem_def, Option.some.injEq] at hy
      rw [← hy, mkRound_query]

theorem searchLoop_stop_spec (ctx : SearchCtx) (oracle : Nat → FetchOutcome) :
    ∀ (fuel i : Nat) (eng : Engine) (pg pp : Int) (prev : Option StructureAnalysis),
      (searchLoop ctx oracle fuel i eng pg pp prev).rounds.length ≤ fuel ∧
      (((searchLoop ctx oracle fuel i eng pg pp prev).stop = none ∧
          (searchLoop ctx oracle fuel i eng pg pp prev).rounds.length = fuel ∧
          ∀ r ∈ (searchLoop ctx oracle fuel i eng pg pp prev).rounds,
            (r.hits : Int) < ctx.minResults)
        ∨ ((searchLoop ctx oracle fuel i eng pg pp prev).stop = some "minResultsReached" ∧
          ∃ pre last, (searchLoop ctx oracle fuel i eng pg pp prev).rounds = pre ++ [last] ∧
            (∀ r ∈ pre, (r.hits : Int) < ctx.minResults) ∧
            ctx.minResults ≤ (last.hits : Int))) := by
  intro fuel
  induction fuel with
  | zero =>
    intro i eng pg pp prev
    refine ⟨by simp [searchLoop], Or.inl ⟨rfl, by simp [searchLoop], ?_⟩⟩
    intro r hr
    simp [searchLoop] at hr
  | succ k ih =>
    intro i eng pg pp prev
    rcases searchLoop_succ_cases ctx oracle k i eng pg pp prev _ rfl with
      ⟨hstop, heq⟩ | ⟨hstop, hk, heq⟩ | ⟨hstop, hk, heq⟩
    · rw [heq]
      refine ⟨by simp, Or.inr ⟨rfl, [], _, by simp, ?_, hstop⟩⟩
      intro r hr
      cases hr
    · rw [heq]
      subst hk
      refine ⟨by simp, Or.inl ⟨rfl, by simp, ?_⟩⟩
      intro r hr
      simp only [List.mem_singleton] at hr
      subst hr
      exact lt_of_not_le hstop
    · rw [heq]
      obtain ⟨hlen, hdisj⟩ := ih (i + 1)
        (nextEngine (mkRound ctx oracle i eng prev (decide (k ≠ 0))) eng)
        (nextPages (mkRound ctx oracle i eng prev (decide (k ≠ 0))) pg)
        (nextPerPage (mkRound ctx oracle i eng prev (decide (k ≠ 0))) pp)
        (some (mkRound ctx oracle i eng prev (decide (k ≠ 0))).structureAnalysis)
      refine ⟨by simpa using Nat.succ_le_succ hlen, ?_⟩
      rcases hdisj with ⟨hnone, hlen2, hall⟩ | ⟨hsome, pre, last, hsplit, hpre, hlast⟩
      · refine Or.inl ⟨hnone, by simpa using hlen2, ?_⟩
        intro r hr
        rcases List.mem_cons.mp hr with rfl | hr2
        · exact lt_of_not_le hstop
        · exact hall r hr2
      · refine Or.inr ⟨hsome, mkRound ctx oracle i eng prev (decide (k ≠ 0)) :: pre, last,
          by rw [List.cons_append, ← hsplit], ?_, hlast⟩
        intro r hr
        rcases List.mem_cons.mp hr with rfl | hr2
        · exact lt_of_not_le hstop
        · exact hpre r hr2

theorem scoreResponse_score (results : List SimpleResult) (kw : Option (List String)) :
    (scoreResponse results kw).score =
      ((scoreResponse results kw).hits : ℚ) * 2
        + ((responseDomains results).length : ℚ) * (3 / 10)
        + (min results.length 10 : ℚ) * (1 / 10) := by
  cases kw <;> rfl

theorem scoreResponse_nil_hits (kw : Option (List String)) :
    (scoreResponse [] kw).hits = 0 := by
  cases kw <;> rfl

theorem generateStructureAnalysis_struct (st : ResultStructure) :
    (generateStructureAnalysis st).struct = st := rfl

theorem nextEngine_of_low_score (r : AdaptiveSearchRound) (e : Engine)
    (h : r.structureAnalysis.struct.structuralScore = 1 / 5) :
    nextEngine r e = Engine.baidu := by
  have hlt : r.structureAnalysis.struct.structuralScore < 2 / 5 := by rw [h]; norm_num
  simp [nextEngine, adjustSearchStrategyBasedOnStructure, hlt]

theorem isCjkCodeChar_isCjkIdeograph (c : Char) (h : isCjkCodeChar c = true) :
    isCjkIdeograph c = true := by
  simp only [isCjkCodeChar, Bool.and_eq_true, decide_eq_true_eq] at h
  simp only [isCjkIdeograph, Bool.and_eq_true, decide_eq_true_eq]
  omega

theorem structuralBonus_ge_nine_tenths (hasTitles hasSnippets hasUrls : Bool)
    (itemCount uniq : Nat) (avgSnippet : ℚ) (dups empties : Nat)
    (hT : hasTitles = true) (hS : hasSnippets = true) (hU : hasUrls = true)
    (hI : 1 ≤ itemCount) (hUq : 2 < uniq) (hD : dups = 0) (hE : empties = 0) :
    9 / 10 ≤ structuralBonus hasTitles hasSnippets hasUrls itemCount uniq avgSnippet dups empties := by
  unfold structuralBonus
  have h4 : (1 : ℚ) / 10 ≤ (if 0 < itemCount then min ((itemCount : ℚ) / 10) (1 / 10) else 0) := by
    rw [if_pos (by omega)]
    refine le_min ?_ le_rfl
    have hc : (1 : ℚ) ≤ (itemCount : ℚ) := by exact_mod_cast hI
    linarith
  have h6 : (0 : ℚ) ≤ (if 50 < avgSnippet then (1 : ℚ) / 10 else 0) := by split <;> norm_num
  rw [if_pos hT, if_pos hS, if_pos hU, if_pos hUq, if_pos hD, if_pos hE]
  linarith

theorem anyCjkCode_anyCjkIdeograph (query : String)
    (h : query.data.any isCjkCodeChar = true) : query.data.any isCjkIdeograph = true := by
  obtain ⟨c, hc, hcc⟩ := List.any_eq_true.mp h
  exact List.any_eq_true.mpr ⟨c, hc, isCjkCodeChar_isCjkIdeograph c hcc⟩

theorem run_stopReason (opts : AdaptiveSearchOptions) (oracle : Nat → FetchOutcome) :
    (adaptiveSearchRun opts oracle).stopReason
      = (runLoopOut opts oracle).stop.getD "maxRoundsReached" := rfl

theorem run_rounds (opts : AdaptiveSearchOptions) (oracle : Nat → FetchOutcome) :
    (adaptiveSearchRun opts oracle).rounds = (runLoopOut opts oracle).rounds := rfl

theorem run_best (opts : AdaptiveSearchOptions) (oracle : Nat → FetchOutcome) :
    (adaptiveSearchRun opts oracle).best
      = (pickBest (runLoopOut opts oracle).rounds).map Prod.fst := rfl

theorem run_wf (opts : AdaptiveSearchOptions) (oracle : Nat → FetchOutcome) :
    ∀ r ∈ (adaptiveSearchRun opts oracle).rounds, RoundWF (runCtx opts) oracle r :=
  searchLoop_wf (runCtx opts) oracle (adaptiveMaxRounds opts).toNat 0
    (opts.engine.getD Engine.bing) (opts.pages.getD 2) (opts.perPage.getD 10) none

theorem run_query_chain (opts : AdaptiveSearchOptions) (oracle : Nat → FetchOutcome) :
    List.Chain'
      (fun a b => b.query = optimizeQueryBasedOnStructure opts.query a.structureAnalysis (runLang opts))
      (adaptiveSearchRun opts oracle).rounds :=
  searchLoop_query_chain (runCtx opts) oracle (adaptiveMaxRounds opts).toNat 0
    (opts.engine.getD Engine.bing) (opts.pages.getD 2) (opts.perPage.getD 10) none

theorem run_engine_chain (opts : AdaptiveSearchOptions) (oracle : Nat → FetchOutcome) :
    List.Chain' (fun a b => b.engine = nextEngine a a.engine)
      (adaptiveSearchRun opts oracle).rounds :=
  searchLoop_engine_chain (runCtx opts) oracle (adaptiveMaxRounds opts).toNat 0
    (opts.engine.getD Engine.bing) (opts.pages.getD 2) (opts.perPage.getD 10) none

theorem run_roundIndex (opts : AdaptiveSearchOptions) (oracle : Nat → FetchOutcome) :
    (adaptiveSearchRun opts oracle).rounds.map (fun r => r.roundIndex)
      = List.range' 0 (adaptiveSearchRun opts oracle).rounds.length :=
  searchLoop_roundIndex (runCtx opts) oracle (adaptiveMaxRounds opts).toNat 0
    (opts.engine.getD Engine.bing) (opts.pages.getD 2) (opts.perPage.getD 10) none

theorem run_stop_spec (opts : AdaptiveSearchOptions) (oracle : Nat → FetchOutcome) :
    (adaptiveSearchRun opts oracle).rounds.length ≤ (adaptiveMaxRounds opts).toNat ∧
    (((runLoopOut opts oracle).stop = none ∧
        (adaptiveSearchRun opts oracle).rounds.length = (adaptiveMaxRounds opts).toNat ∧
        ∀ r ∈ (adaptiveSearchRun opts oracle).rounds, (r.hits : Int) < adaptiveMinResults opts)
      ∨ ((runLoopOut opts oracle).stop = some "minResultsReached" ∧
        ∃ pre last, (adaptiveSearchRun opts oracle).rounds = pre ++ [last] ∧
          (∀ r ∈ pre, (r.hits : Int) < adaptiveMinResults opts) ∧
          adaptiveMinResults opts ≤ (last.hits : Int))) :=
  searchLoop_stop_spec (runCtx opts) oracle (adaptiveMaxRounds opts).toNat 0
    (opts.engine.getD Engine.bing) (opts.pages.getD 2) (opts.perPage.getD 10) none

theorem adaptiveMaxRounds_toNat_pos (opts : AdaptiveSearchOptions) :
    1 ≤ (adaptiveMaxRounds opts).toNat := by
  have h1 : (1 : Int) ≤ max 1 (opts.maxRounds.getD 2) := le_max_left _ _
  unfold adaptiveMaxRounds
  omega

theorem run_head (opts : AdaptiveSearchOptions) (oracle : Nat → FetchOutcome) :
    ∃ k rest, (adaptiveMaxRounds opts).toNat = k + 1 ∧
      (adaptiveSearchRun opts oracle).rounds
        = mkRound (runCtx opts) oracle 0 (opts.engine.getD Engine.bing) none (decide (k ≠ 0))
          :: rest := by
  obtain ⟨k, hk⟩ : ∃ k, (adaptiveMaxRounds opts).toNat = k + 1 :=
    ⟨(adaptiveMaxRounds opts).toNat - 1, by have := adaptiveMaxRounds_toNat_pos opts; omega⟩
  obtain ⟨rest, hrest⟩ := searchLoop_head (runCtx opts) oracle k 0
    (opts.engine.getD Engine.bing) (opts.pages.getD 2) (opts.perPage.getD 10) none
  refine ⟨k, rest, hk, ?_⟩
  show (runLoopOut opts oracle).rounds = _
  unfold runLoopOut
  rw [hk]
  exact hrest

theorem run_rounds_ne_nil (opts : AdaptiveSearchOptions) (oracle : Nat → FetchOutcome) :
    (adaptiveSearchRun opts oracle).rounds ≠ [] := by
  obtain ⟨k, rest, _, hcons⟩ := run_head opts oracle
  rw [hcons]
  exact List.cons_ne_nil _ _

theorem analyze_relevanceScore (results : List SimpleResult) (keywords : List String)
    (language : Lang) :
    (analyzeResultStructure results keywords language).relevanceScore
      = ((collectMatchedKeywords results keywords language).length : ℚ)
        / (max keywords.length 1 : ℚ) := rfl

theorem analyze_nil_type (keywords : List String) (language : Lang) :
    (analyzeResultStructure [] keywords language).type = StructType.none := rfl

theorem optimize_of_empty_en (keywords : List String) (base : String)
    (hkws : collectMatchedKeywords [] keywords Lang.en = []) :
    optimizeQueryBasedOnStructure base
        (generateStructureAnalysis (analyzeResultStructure [] keywords Lang.en)) Lang.en
      = strTrim ((base ++ " detailed information") ++ " official website") := by
  have hrel : (analyzeResultStructure [] keywords Lang.en).relevanceScore = 0 := by
    rw [analyze_relevanceScore, hkws]
    simp
  unfold optimizeQueryBasedOnStructure
  rw [generateStructureAnalysis_struct, hrel, analyze_nil_type]
  have h1 : (0 : ℚ) < 3 / 10 := by norm_num
  have h2 : ¬(Lang.en = Lang.zh) := by decide
  have h3 : StructType.none = StructType.none := rfl
  simp only [if_pos h1, if_neg h2, if_pos h3, if_true]

/-! Claim theorems. -/

/-- C3: in the site-interaction call, when the results indicator fails
to appear and a blocked page is detected (blocked-page detection being
the risk-handler-URL / captcha-vocabulary test, which runs when
blocker detection is enabled), and human intervention is not requested
(`pauseForHuman = false`), the call throws the blocked error at once —
it does not enter the multi-minute auto-poll wait. -/
theorem claim3_blocked_fail_fast (detectBlockers : Bool) (mode : PauseMode) (url text : String)
    (hdetect : ((false || detectBlockers) && isLikelyBlocked url text) = true) :
    handleResultsWaitFailure false detectBlockers mode url text
        = WaitFailureOutcome.blockedError ∧
      handleResultsWaitFailure false detectBlockers mode url text
        ≠ WaitFailureOutcome.humanAutoPoll := by
  have hmain : handleResultsWaitFailure false detectBlockers mode url text
      = WaitFailureOutcome.blockedError := by
    simp only [handleResultsWaitFailure, Bool.false_or] at hdetect ⊢
    simp [hdetect]
  exact ⟨hmain, by rw [hmain]; intro h; cases h⟩

/-- C3 witness: a risk-handler redirect URL with blocker detection on
and no human intervention requested throws the blocked error. -/
theorem claim3_witness :
    handleResultsWaitFailure false true PauseMode.auto
        "https://www.sogou.com/antispider/risk_handler?from=results" ""
        = WaitFailureOutcome.blockedError ∧
      handleResultsWaitFailure false true PauseMode.auto
        "https://www.sogou.com/antispider/risk_handler?from=results" ""
        ≠ WaitFailureOutcome.humanAutoPoll :=
  claim3_blocked_fail_fast true PauseMode.auto
    "https://www.sogou.com/antispider/risk_handler?from=results" "" (by decide)

/-- C6 counterexample: a result set with one-character non-empty
fields, three distinct domains and pairwise-distinct titles ("A", "a",
"B") scores only 0.8, because the duplicate-title counter works on
lowercased titles and the snippet-length bonus does not fire; so the
claim's bound of 0.9 fails as literally stated. -/
theorem claim6_counterexample :
    caseCollidingResults ≠ [] ∧
      (∀ r ∈ caseCollidingResults, r.title ≠ "" ∧ r.snippet ≠ "" ∧ r.url ≠ "") ∧
      3 ≤ uniqueDomainCount caseCollidingResults ∧
      (caseCollidingResults.map (fun r => r.title)).Nodup ∧
      (analyzeResultStructure caseCollidingResults [] Lang.en).structuralScore = 4 / 5 ∧
      ¬(9 / 10 ≤ (analyzeResultStructure caseCollidingResults [] Lang.en).structuralScore) := by
  have havg : averageSnippetLength caseCollidingResults = 1 := by
    have h1 : ("x" : String).length = 1 := by decide
    have h2 : ("y" : String).length = 1 := by decide
    have h3 : ("z" : String).length = 1 := by decide
    simp only [averageSnippetLength, caseCollidingResults, List.map, List.sum_cons,
      List.sum_nil, List.length_cons, List.length_nil, h1, h2, h3]
    norm_num
  have hscore : (analyzeResultStructure caseCollidingResults [] Lang.en).structuralScore = 4 / 5 := by
    rw [analyze_structuralScore,
      show (caseCollidingResults.any fun r => strTrim r.title ≠ "") = true from by decide,
      show (caseCollidingResults.any fun r => strTrim r.snippet ≠ "") = true from by decide,
      show (caseCollidingResults.any fun r => strTrim r.url ≠ "") = true from by decide,
      show caseCollidingResults.length = 3 from by decide,
      show uniqueDomainCount caseCollidingResults = 3 from by decide,
      show duplicateTitles caseCollidingResults = 1 from by decide,
      show emptyFields caseCollidingResults = 0 from by decide, havg]
    unfold structuralBonus
    norm_num [min_def]
  refine ⟨by decide, by decide, by decide, by decide, hscore, ?_⟩
  rw [hscore]
  norm_num

/-- C6 (amended): for every result set with at least one item in which
every item has a non-blank title, snippet and URL, whose URLs span at
least 3 distinct domains, and in which no two titles coincide after
lowercasing, the structural score is at least 0.9. -/
theorem claim6_amended (results : List SimpleResult) (keywords : List String) (language : Lang)
    (hne : results ≠ [])
    (hfields : ∀ r ∈ results, strTrim r.title ≠ "" ∧ strTrim r.snippet ≠ "" ∧ strTrim r.url ≠ "")
    (hdomains : 3 ≤ uniqueDomainCount results)
    (htitles : (results.map (fun r => strToLower r.title)).Nodup) :
    9 / 10 ≤ (analyzeResultStructure results keywords language).structuralScore := by
  rw [analyze_structuralScore]
  obtain ⟨r0, hr0⟩ := List.exists_mem_of_ne_nil results hne
  have hT : results.any (fun r => strTrim r.title ≠ "") = true :=
    List.any_eq_true.mpr ⟨r0, hr0, decide_eq_true (hfields r0 hr0).1⟩
  have hS : results.any (fun r => strTrim r.snippet ≠ "") = true :=
    List.any_eq_true.mpr ⟨r0, hr0, decide_eq_true (hfields r0 hr0).2.1⟩
  have hU : results.any (fun r => strTrim r.url ≠ "") = true :=
    List.any_eq_true.mpr ⟨r0, hr0, decide_eq_true (hfields r0 hr0).2.2⟩
  have hI : 1 ≤ results.length := List.length_pos.mpr hne
  have hD : duplicateTitles results = 0 := by
    have hnodup : (nonemptyLowerTitles results).Nodup := List.Nodup.filter _ htitles
    have hcount := List.nodup_iff_count_le_one.mp hnodup
    unfold duplicateTitles
    rw [List.length_eq_zero, List.filter_eq_nil_iff]
    intro t _
    have := hcount t
    simp only [decide_eq_true_eq]
    omega
  have hE : emptyFields results = 0 := by
    unfold emptyFields
    rw [List.length_eq_zero, List.filter_eq_nil_iff]
    intro r hr
    obtain ⟨h1, h2, h3⟩ := hfields r hr
    have ht : r.title ≠ "" := by intro h; exact h1 (by rw [h]; decide)
    have hs : r.snippet ≠ "" := by intro h; exact h2 (by rw [h]; decide)
    have hu : r.url ≠ "" := by intro h; exact h3 (by rw [h]; decide)
    simp [ht, hs, hu]
  exact structuralBonus_ge_nine_tenths _ _ _ _ _ _ _ _ hT hS hU hI (by omega) hD hE

/-- C6 witness: three fully populated results on three domains whose
titles stay distinct after lowercasing reach the 0.9 bound. -/
theorem claim6_witness :
    cleanResults ≠ [] ∧
      (∀ r ∈ cleanResults, strTrim r.title ≠ "" ∧ strTrim r.snippet ≠ "" ∧ strTrim r.url ≠ "") ∧
      3 ≤ uniqueDomainCount cleanResults ∧
      (cleanResults.map (fun r => strToLower r.title)).Nodup ∧
      9 / 10 ≤ (analyzeResultStructure cleanResults ["kw"] Lang.en).structuralScore :=
  ⟨by decide, by decide, by decide, by decide,
    claim6_amended cleanResults ["kw"] Lang.en (by decide) (by decide) (by decide) (by decide)⟩

/-- C7 counterexample: no result set at all makes the structural score
exceed 1.0 — the eight bonuses sum to exactly 1.0 — refuting the
claim's "for some ResultSet ... exceeds 1.0". -/
theorem claim7_counterexample :
    ¬ ∃ (results : List SimpleResult) (keywords : List String) (language : Lang),
      1 < (analyzeResultStructure results keywords language).structuralScore := by
  rintro ⟨rs, kw, lang, h⟩
  exact absurd h (not_lt.mpr (structuralScore_le_one rs kw lang))

/-- C7 (amended): the structural score is an unclamped additive sum yet
is bounded by 1.0 on every result set, and it attains exactly 1.0 when
all bonuses co-occur; it never exceeds 1.0. -/
theorem claim7_amended :
    (∀ (results : List SimpleResult) (keywords : List String) (language : Lang),
      (analyzeResultStructure results keywords language).structuralScore ≤ 1) ∧
    (analyzeResultStructure allBonusResults [] Lang.en).structuralScore = 1 := by
  refine ⟨structuralScore_le_one, ?_⟩
  have havg : averageSnippetLength allBonusResults = 60 := by
    have h1 : longSnippet.length = 60 := by decide
    simp only [averageSnippetLength, allBonusResults, List.map, List.sum_cons,
      List.sum_nil, List.length_cons, List.length_nil, h1]
    norm_num
  rw [analyze_structuralScore,
    show (allBonusResults.any fun r => strTrim r.title ≠ "") = true from by decide,
    show (allBonusResults.any fun r => strTrim r.snippet ≠ "") = true from by decide,
    show (allBonusResults.any fun r => strTrim r.url ≠ "") = true from by decide,
    show allBonusResults.length = 3 from by decide,
    show uniqueDomainCount allBonusResults = 3 from by decide,
    show duplicateTitles allBonusResults = 0 from by decide,
    show emptyFields allBonusResults = 0 from by decide, havg]
  unfold structuralBonus
  norm_num [min_def]

/-- C8 counterexample: the baike engine pushes one opened entry even
with a zero click-through budget, refuting "when details = 0 the
opened list is empty" for every fetcher call. -/
theorem claim8_counterexample :
    wsDetails baikeNoDetailsOpts = 0 ∧
      (match webSearch baikeNoDetailsOpts onePageFetch okSummarize id with
        | Except.ok r => r.opened.length
        | Except.error _ => 0) = 1 := by
  decide

/-- C8 (amended): on the search-engine path, opened entries produced
from clicking through results appear only when the click-through
budget is positive: with `details = 0` and a non-empty result list the
opened list is empty.  (The baike engine and the empty-results
fallback each append one opened entry regardless of the budget.) -/
theorem claim8_amended (opts : WebSearchOptions) (fetchPage : Nat → PageFetch)
    (summarize : String → Except String String) (decodeUrl : String → String)
    (hdet : wsDetails opts = 0)
    (hres : (webSearchEngines opts fetchPage summarize decodeUrl).results ≠ []) :
    (webSearchEngines opts fetchPage summarize decodeUrl).opened = [] := by
  have h1 : ¬ 0 < wsDetails opts := by rw [hdet]; exact lt_irrefl 0
  have h2 : ¬ (wsSorted opts fetchPage decodeUrl).length = 0 := by
    intro h
    exact hres (List.length_eq_zero.mp h)
  show wsOpened opts fetchPage summarize decodeUrl = []
  unfold wsOpened
  rw [if_neg h1, if_neg h2]
  rfl

/-- C8 witness: a bing call with a zero budget that collects one result
returns no opened entries. -/
theorem claim8_witness :
    wsDetails bingNoDetailsOpts = 0 ∧
      (webSearchEngines bingNoDetailsOpts onePageFetch okSummarize id).results ≠ [] ∧
      (webSearchEngines bingNoDetailsOpts onePageFetch okSummarize id).opened = [] :=
  ⟨by decide, by decide,
    claim8_amended bingNoDetailsOpts onePageFetch okSummarize id (by decide) (by decide)⟩

/-- C9 counterexample: U+9FA6 is a CJK ideograph (CJK Unified
Ideographs block), yet a query consisting of it is detected as
English — the code's class stops at U+9FA5. -/
theorem claim9_counterexample :
    isCjkIdeograph '龦' = true ∧ detectLanguage "龦" none = Lang.en := by
  decide

/-- C9 (amended): with no override (or an `auto` override) the detected
language is `zh` exactly when the query contains a character in
U+4E00..U+9FA5 (a proper subrange of the CJK ideographs); a query
containing no CJK ideograph at all is detected as `en`; an explicit
non-auto override is returned unchanged. -/
theorem claim9_amended (query : String) (override : Option LangChoice) :
    ((override = none ∨ override = some LangChoice.auto) →
      (detectLanguage query override = Lang.zh ↔ query.data.any isCjkCodeChar = true)) ∧
    ((override = none ∨ override = some LangChoice.auto) →
      query.data.any isCjkIdeograph = false → detectLanguage query override = Lang.en) ∧
    (override = some LangChoice.zh → detectLanguage query override = Lang.zh) ∧
    (override = some LangChoice.en → detectLanguage query override = Lang.en) := by
  refine ⟨?_, ?_, ?_, ?_⟩
  · rintro (rfl | rfl) <;>
      · simp only [detectLanguage]
        by_cases h : query.data.any isCjkCodeChar = true
        · simp [h]
        · simp [h]
  · rintro (rfl | rfl) hno <;>
      · simp only [detectLanguage]
        have hnc : ¬ query.data.any isCjkCodeChar = true := by
          intro h
          rw [anyCjkCode_anyCjkIdeograph query h] at hno
          cases hno
        simp [hnc]
  · rintro rfl; rfl
  · rintro rfl; rfl

/-- C9 witness: a common ideograph in the tested range is detected as
Chinese, an ASCII query as English, and an explicit override wins. -/
theorem claim9_witness :
    detectLanguage "你" none = Lang.zh ∧ detectLanguage "x" none = Lang.en ∧
      detectLanguage "你" (some LangChoice.en) = Lang.en :=
  ⟨((claim9_amended "你" none).1 (Or.inl rfl)).mpr (by decide),
    (claim9_amended "x" none).2.1 (Or.inl rfl) (by decide),
    (claim9_amended "你" (some LangChoice.en)).2.2.2 rfl⟩

/-- C1: for every run with a non-empty query, the terminal stop reason
is `minResultsReached` iff some executed round reached `minResults`
hits (and the loop stopped at the first such round: every earlier round
is below the threshold); otherwise all `maxRounds` rounds executed,
every round is below the threshold, and the stop reason is
`maxRoundsReached`. -/
theorem claim1_stop_reason (opts : AdaptiveSearchOptions) (oracle : Nat → FetchOutcome)
    (hq : opts.query ≠ "") :
    ((adaptiveSearchRun opts oracle).stopReason = "minResultsReached" ↔
      ∃ r ∈ (adaptiveSearchRun opts oracle).rounds, adaptiveMinResults opts ≤ (r.hits : Int)) ∧
    ((adaptiveSearchRun opts oracle).stopReason = "minResultsReached" →
      ∀ r ∈ (adaptiveSearchRun opts oracle).rounds.dropLast,
        (r.hits : Int) < adaptiveMinResults opts) ∧
    ((adaptiveSearchRun opts oracle).stopReason ≠ "minResultsReached" →
      (adaptiveSearchRun opts oracle).stopReason = "maxRoundsReached" ∧
      (adaptiveSearchRun opts oracle).rounds.length = (adaptiveMaxRounds opts).toNat ∧
      ∀ r ∈ (adaptiveSearchRun opts oracle).rounds, (r.hits : Int) < adaptiveMinResults opts) := by
  obtain ⟨hlen, hdisj⟩ := run_stop_spec opts oracle
  rcases hdisj with ⟨hnone, hlenf, hall⟩ | ⟨hsome, pre, last, hsplit, hpre, hlast⟩
  · rw [run_stopReason, hnone, Option.getD_none]
    refine ⟨⟨fun h => absurd h (by decide), ?_⟩, fun h => absurd h (by decide),
      fun _ => ⟨rfl, hlenf, hall⟩⟩
    rintro ⟨r, hr, hge⟩
    exact absurd hge (not_le.mpr (hall r hr))
  · rw [run_stopReason, hsome, Option.getD_some]
    refine ⟨⟨fun _ => ⟨last, ?_, hlast⟩, fun _ => rfl⟩, ?_, fun h => absurd rfl h⟩
    · rw [hsplit]
      exact List.mem_append_right _ (List.mem_singleton_self last)
    · intro _ r hr
      rw [hsplit, List.dropLast_concat] at hr
      exact hpre r hr

/-- C1 witness: a query whose own token is a keyword with
`minResults = 1` and a one-hit fetch stops with `minResultsReached`. -/
theorem claim1_witness :
    ((adaptiveSearchRun quickStopOpts oneHitOracle).stopReason = "minResultsReached" ↔
      ∃ r ∈ (adaptiveSearchRun quickStopOpts oneHitOracle).rounds,
        adaptiveMinResults quickStopOpts ≤ (r.hits : Int)) ∧
    ((adaptiveSearchRun quickStopOpts oneHitOracle).stopReason = "minResultsReached" →
      ∀ r ∈ (adaptiveSearchRun quickStopOpts oneHitOracle).rounds.dropLast,
        (r.hits : Int) < adaptiveMinResults quickStopOpts) ∧
    ((adaptiveSearchRun quickStopOpts oneHitOracle).stopReason ≠ "minResultsReached" →
      (adaptiveSearchRun quickStopOpts oneHitOracle).stopReason = "maxRoundsReached" ∧
      (adaptiveSearchRun quickStopOpts oneHitOracle).rounds.length
        = (adaptiveMaxRounds quickStopOpts).toNat ∧
      ∀ r ∈ (adaptiveSearchRun quickStopOpts oneHitOracle).rounds,
        (r.hits : Int) < adaptiveMinResults quickStopOpts) :=
  claim1_stop_reason quickStopOpts oneHitOracle (by decide)

/-- C2: for every run with a non-empty query, each round's score is
`hits*2 + uniqueDomainCount*0.3 + min(resultCount,10)*0.1` (domains
from the parseable result URLs), and the returned best round is the
earliest round of maximal score: all rounds before it score strictly
less, all rounds after it score no more, and `bestRoundIndex` is its
position. -/
theorem claim2_best_round (opts : AdaptiveSearchOptions) (oracle : Nat → FetchOutcome)
    (hq : opts.query ≠ "") :
    (∀ r ∈ (adaptiveSearchRun opts oracle).rounds,
      r.score = (r.hits : ℚ) * 2 + ((responseDomains r.results).length : ℚ) * (3 / 10)
        + (min r.resultCount 10 : ℚ) * (1 / 10)) ∧
    (∃ b l1 l2, (adaptiveSearchRun opts oracle).best = some b ∧
      (adaptiveSearchRun opts oracle).rounds = l1 ++ b :: l2 ∧
      (adaptiveSearchRun opts oracle).bestRoundIndex = (l1.length : Int) ∧
      (∀ r ∈ l1, r.score < b.score) ∧ (∀ r ∈ l2, r.score ≤ b.score)) := by
  constructor
  · intro r hr
    obtain ⟨hres, herr, hhits, hscore, hcount, hsa, hgoal⟩ := run_wf opts oracle r hr
    rw [hscore, scoreResponse_score, ← hhits, ← hcount]
  · obtain ⟨b, bi, hpick, hmax⟩ :=
      pickBest_spec (adaptiveSearchRun opts oracle).rounds (run_rounds_ne_nil opts oracle)
    obtain ⟨l1, l2, hsplit, hbi, hlt, hle⟩ := hmax
    refine ⟨b, l1, l2, ?_, hsplit, ?_, hlt, hle⟩
    · rw [run_best]
      rw [run_rounds] at hpick
      rw [hpick]
      rfl
    · show (match pickBest (runLoopOut opts oracle).rounds with
        | some p => (p.2 : Int)
        | none => -1) = (l1.length : Int)
      rw [run_rounds] at hpick
      rw [hpick, hbi]

/-- C2 witness: a two-round run over an empty-result oracle has a
well-defined earliest best round with the stated score formula. -/
theorem claim2_witness :
    (∀ r ∈ (adaptiveSearchRun twoRoundOpts emptyOracle).rounds,
      r.score = (r.hits : ℚ) * 2 + ((responseDomains r.results).length : ℚ) * (3 / 10)
        + (min r.resultCount 10 : ℚ) * (1 / 10)) ∧
    (∃ b l1 l2, (adaptiveSearchRun twoRoundOpts emptyOracle).best = some b ∧
      (adaptiveSearchRun twoRoundOpts emptyOracle).rounds = l1 ++ b :: l2 ∧
      (adaptiveSearchRun twoRoundOpts emptyOracle).bestRoundIndex = (l1.length : Int) ∧
      (∀ r ∈ l1, r.score < b.score) ∧ (∀ r ∈ l2, r.score ≤ b.score)) :=
  claim2_best_round twoRoundOpts emptyOracle (by decide)

/-- C10: every run with a non-empty query returns (the clamps make at
least one round run even for non-positive caller limits), with a
non-empty round history, a non-null best round, and a best-round index
that is a valid index into the history. -/
theorem claim10_response_invariants (opts : AdaptiveSearchOptions) (oracle : Nat → FetchOutcome)
    (hq : opts.query ≠ "") :
    adaptiveSearch opts oracle = Except.ok (adaptiveSearchRun opts oracle) ∧
    (adaptiveSearchRun opts oracle).rounds ≠ [] ∧
    (∃ b, (adaptiveSearchRun opts oracle).best = some b) ∧
    0 ≤ (adaptiveSearchRun opts oracle).bestRoundIndex ∧
    (adaptiveSearchRun opts oracle).bestRoundIndex
      < ((adaptiveSearchRun opts oracle).rounds.length : Int) := by
  have hne := run_rounds_ne_nil opts oracle
  obtain ⟨b, bi, hpick, hmax⟩ :=
    pickBest_spec (adaptiveSearchRun opts oracle).rounds hne
  obtain ⟨l1, l2, hsplit, hbi, _, _⟩ := hmax
  rw [run_rounds] at hpick
  have hidx : (adaptiveSearchRun opts oracle).bestRoundIndex = (bi : Int) := by
    show (match pickBest (runLoopOut opts oracle).rounds with
      | some p => (p.2 : Int)
      | none => -1) = (bi : Int)
    rw [hpick]
  refine ⟨by unfold adaptiveSearch; rw [if_neg hq], hne, ⟨b, ?_⟩, ?_, ?_⟩
  · rw [run_best, hpick]
    rfl
  · rw [hidx]
    exact Int.ofNat_nonneg bi
  · rw [hidx, hsplit, hbi]
    have : l1.length < (l1 ++ b :: l2).length := by
      rw [List.length_append, List.length_cons]
      omega
    exact_mod_cast this

/-- C10 witness: non-positive caller limits are clamped and the
response still satisfies the invariants. -/
theorem claim10_witness :
    adaptiveSearch clampedOpts emptyOracle
        = Except.ok (adaptiveSearchRun clampedOpts emptyOracle) ∧
    (adaptiveSearchRun clampedOpts emptyOracle).rounds ≠ [] ∧
    (∃ b, (adaptiveSearchRun clampedOpts emptyOracle).best = some b) ∧
    0 ≤ (adaptiveSearchRun clampedOpts emptyOracle).bestRoundIndex ∧
    (adaptiveSearchRun clampedOpts emptyOracle).bestRoundIndex
      < ((adaptiveSearchRun clampedOpts emptyOracle).rounds.length : Int) :=
  claim10_response_invariants clampedOpts emptyOracle (by decide)

theorem mkRound_error (ctx : SearchCtx) (oracle : Nat → FetchOutcome) (i : Nat) (eng : Engine)
    (prev : Option StructureAnalysis) (hm : Bool) :
    (mkRound ctx oracle i eng prev hm).error = fetchError (oracle i) := rfl

theorem mkRound_resultCount (ctx : SearchCtx) (oracle : Nat → FetchOutcome) (i : Nat)
    (eng : Engine) (prev : Option StructureAnalysis) (hm : Bool) :
    (mkRound ctx oracle i eng prev hm).resultCount = (fetchResults (oracle i)).length := rfl

theorem mkRound_hits (ctx : SearchCtx) (oracle : Nat → FetchOutcome) (i : Nat) (eng : Engine)
    (prev : Option StructureAnalysis) (hm : Bool) :
    (mkRound ctx oracle i eng prev hm).hits
      = (scoreResponse (fetchResults (oracle i)) (buildKeywordRegex ctx.keywordList)).hits := rfl

theorem mkRound_structureAnalysis (ctx : SearchCtx) (oracle : Nat → FetchOutcome) (i : Nat)
    (eng : Engine) (prev : Option StructureAnalysis) (hm : Bool) :
    (mkRound ctx oracle i eng prev hm).structureAnalysis
      = generateStructureAnalysis
          (analyzeResultStructure (fetchResults (oracle i)) ctx.keywordList ctx.lang) := rfl

/-- C4 counterexample: in a concrete two-round run with the `popular`
goal (whose configuration does have site filters and a query suffix),
round 1's submitted query is only the structure-optimized original —
no `site:` clause and no goal suffix is appended, because `search`
never calls `buildQuery`. -/
theorem claim4_counterexample :
    ((adaptiveSearchRun twoRoundOpts emptyOracle).rounds.map (fun r => r.query))
        = ["hello", "hello detailed information official website"] ∧
      (goalConfig (adaptiveSearchRun twoRoundOpts emptyOracle).goal).siteFilters ≠ [] ∧
      ((adaptiveSearchRun twoRoundOpts emptyOracle).rounds.map
        (fun r => containsSub r.query "site:")) = [false, false] := by
  have hlen : (adaptiveSearchRun twoRoundOpts emptyOracle).rounds.length = 2 := by decide
  obtain ⟨k, rest, hk, hcons⟩ := run_head twoRoundOpts emptyOracle
  have hrest1 : rest.length = 1 := by
    rw [hcons] at hlen
    simpa using hlen
  obtain ⟨r1, hrest⟩ := List.length_eq_one.mp hrest1
  rw [hrest] at hcons
  have hq0 : (mkRound (runCtx twoRoundOpts) emptyOracle 0
      (twoRoundOpts.engine.getD Engine.bing) none (decide (k ≠ 0))).query
      = "hello" := rfl
  have hchain := run_query_chain twoRoundOpts emptyOracle
  rw [hcons] at hchain
  have hrel := (List.chain'_cons'.mp hchain).1 r1 (by simp)
  have hq1 : r1.query = "hello detailed information official website" := by
    rw [hrel, mkRound_structureAnalysis]
    have hfetch : fetchResults (emptyOracle 0) = [] := rfl
    have hlang : runLang twoRoundOpts = Lang.en := by decide
    have hctxlang : (runCtx twoRoundOpts).lang = Lang.en := by decide
    have hquery : twoRoundOpts.query = "hello" := rfl
    rw [hfetch, hlang, hctxlang, hquery]
    rw [optimize_of_empty_en (runCtx twoRoundOpts).keywordList "hello" (by decide)]
    decide
  rw [hcons]
  refine ⟨?_, by decide, ?_⟩
  · simp only [List.map_cons, List.map_nil, hq0, hq1]
  · simp only [List.map_cons, List.map_nil, hq0, hq1]
    decide

/-- C4 (amended): round 0's submitted query is the original query text
verbatim, and the queries of consecutive rounds are linked by the
structure-driven optimization alone: each later round's query is
`optimizeQueryBasedOnStructure` applied to the original query and the
previous round's analysis.  The goal suffix and OR'd site-filter clause
built by `buildQuery` are never appended — `search` does not invoke
`buildQuery`. -/
theorem claim4_amended (opts : AdaptiveSearchOptions) (oracle : Nat → FetchOutcome)
    (hq : opts.query ≠ "") :
    (∀ r rest, (adaptiveSearchRun opts oracle).rounds = r :: rest → r.query = opts.query) ∧
    List.Chain'
      (fun a b => b.query = optimizeQueryBasedOnStructure opts.query a.structureAnalysis (runLang opts))
      (adaptiveSearchRun opts oracle).rounds := by
  refine ⟨?_, run_query_chain opts oracle⟩
  intro r rest hcons
  obtain ⟨k, rest', hk, hcons'⟩ := run_head opts oracle
  rw [hcons] at hcons'
  injection hcons' with h1 _
  rw [h1]
  rfl

/-- C4 witness: the two-round empty-result run instantiates the
amended statement. -/
theorem claim4_witness :
    (∀ r rest, (adaptiveSearchRun twoRoundOpts emptyOracle).rounds = r :: rest →
      r.query = twoRoundOpts.query) ∧
    List.Chain'
      (fun a b =>
        b.query = optimizeQueryBasedOnStructure twoRoundOpts.query a.structureAnalysis
          (runLang twoRoundOpts))
      (adaptiveSearchRun twoRoundOpts emptyOracle).rounds :=
  claim4_amended twoRoundOpts emptyOracle (by decide)

/-- C5 counterexample: a first-round fetch failure is recorded with the
error and zero results, but the empty result set's structural score is
0.2, not 0 as the claim asserts. -/
theorem claim5_counterexample :
    ((adaptiveSearchRun twoRoundOpts failingOracle).rounds.head?.map
        (fun r => (r.error, r.resultCount, r.hits))) = some (some "navigation timeout", 0, 0) ∧
      ((adaptiveSearchRun twoRoundOpts failingOracle).rounds.head?.map
        (fun r => r.structureAnalysis.struct.structuralScore)) = some (1 / 5) ∧
      (1 / 5 : ℚ) ≠ 0 := by
  obtain ⟨k, rest, hk, hcons⟩ := run_head twoRoundOpts failingOracle
  rw [hcons]
  simp only [List.head?_cons, Option.map_some']
  have hfetch : fetchResults (failingOracle 0) = [] := rfl
  refine ⟨?_, ?_, by norm_num⟩
  · rw [mkRound_error, mkRound_resultCount, mkRound_hits]
    decide
  · rw [mkRound_structureAnalysis, generateStructureAnalysis_struct]
    rw [hfetch, analyze_nil_structuralScore]

/-- C5 (amended): every round whose fetch throws is still recorded with
`error` set, `resultCount = 0` and `hits = 0`, and the controller
proceeds: since the empty result set's structural score is 0.2 < 0.4,
whenever another round remains its engine is set to `baidu` (the
strategy adjustment's alternate engine). -/
theorem claim5_failed_round (opts : AdaptiveSearchOptions) (oracle : Nat → FetchOutcome)
    (msg : String) (hq : opts.query ≠ "") :
    ∀ j (hj : j < (adaptiveSearchRun opts oracle).rounds.length),
      oracle j = FetchOutcome.err msg →
      ((adaptiveSearchRun opts oracle).rounds.get ⟨j, hj⟩).error = some msg ∧
      ((adaptiveSearchRun opts oracle).rounds.get ⟨j, hj⟩).resultCount = 0 ∧
      ((adaptiveSearchRun opts oracle).rounds.get ⟨j, hj⟩).hits = 0 ∧
      ((adaptiveSearchRun opts oracle).rounds.get
        ⟨j, hj⟩).structureAnalysis.struct.structuralScore = 1 / 5 ∧
      (j + 1 < (adaptiveMaxRounds opts).toNat →
        ∃ hj1 : j + 1 < (adaptiveSearchRun opts oracle).rounds.length,
          ((adaptiveSearchRun opts oracle).rounds.get ⟨j + 1, hj1⟩).engine = Engine.baidu) := by
  intro j hj horacle
  have hidx : ((adaptiveSearchRun opts oracle).rounds.get ⟨j, hj⟩).roundIndex = j := by
    have hmap := run_roundIndex opts oracle
    have hjm : j < ((adaptiveSearchRun opts oracle).rounds.map (fun r => r.roundIndex)).length := by
      simpa using hj
    have h1 := List.getElem_of_eq hmap hjm
    simpa using h1
  obtain ⟨hres, herr, hhits, hscore, hcount, hsa, _⟩ :=
    run_wf opts oracle _ (List.get_mem (adaptiveSearchRun opts oracle).rounds j hj)
  rw [hidx, horacle] at hres herr
  have hres0 : ((adaptiveSearchRun opts oracle).rounds.get ⟨j, hj⟩).results = [] := by
    rw [hres]
    rfl
  have herr0 : ((adaptiveSearchRun opts oracle).rounds.get ⟨j, hj⟩).error = some msg := by
    rw [herr]
    rfl
  have hcount0 : ((adaptiveSearchRun opts oracle).rounds.get ⟨j, hj⟩).resultCount = 0 := by
    rw [hcount, hres0]
    rfl
  have hhits0 : ((adaptiveSearchRun opts oracle).rounds.get ⟨j, hj⟩).hits = 0 := by
    rw [hhits, hres0]
    exact scoreResponse_nil_hits _
  have hscore15 : ((adaptiveSearchRun opts oracle).rounds.get
      ⟨j, hj⟩).structureAnalysis.struct.structuralScore = 1 / 5 := by
    rw [hsa, hres0, generateStructureAnalysis_struct]
    exact analyze_nil_structuralScore _ _
  refine ⟨herr0, hcount0, hhits0, hscore15, ?_⟩
  intro hj1
  have hminpos : 1 ≤ adaptiveMinResults opts := by
    have h := le_max_left (1 : Int) (opts.minResults.getD 6)
    unfold adaptiveMinResults
    omega
  have hsucc : j + 1 < (adaptiveSearchRun opts oracle).rounds.length := by
    by_contra hge
    push_neg at hge
    obtain ⟨hlen, hdisj⟩ := run_stop_spec opts oracle
    rcases hdisj with ⟨_, hlenf, _⟩ | ⟨_, pre, last, hsplit, _, hlast⟩
    · omega
    · have hlen2 : (adaptiveSearchRun opts oracle).rounds.length = pre.length + 1 := by
        rw [hsplit]
        simp
      have hjpre : j = pre.length := by omega
      have hgetlast : (adaptiveSearchRun opts oracle).rounds.get ⟨j, hj⟩ = last := by
        have h1 := List.getElem_of_eq hsplit hj
        have h2 := List.getElem_concat_length pre last j hjpre
          (by rw [← hsplit]; exact hj)
        rw [← h2]
        exact h1
      rw [hgetlast] at hhits0
      rw [hhits0] at hlast
      omega
  refine ⟨hsucc, ?_⟩
  have hchain := run_engine_chain opts oracle
  rw [List.chain'_iff_get] at hchain
  have hrel := hchain j (by omega)
  rw [hrel]
  exact nextEngine_of_low_score _ _ hscore15

/-- C5 witness: a two-round run whose first fetch throws records the
failure and switches the second round's engine to baidu. -/
theorem claim5_witness :
    ∃ hj : 0 < (adaptiveSearchRun twoRoundOpts failingOracle).rounds.length,
      ((adaptiveSearchRun twoRoundOpts failingOracle).rounds.get ⟨0, hj⟩).error
          = some "navigation timeout" ∧
      ((adaptiveSearchRun twoRoundOpts failingOracle).rounds.get ⟨0, hj⟩).resultCount = 0 ∧
      ((adaptiveSearchRun twoRoundOpts failingOracle).rounds.get ⟨0, hj⟩).hits = 0 ∧
      ((adaptiveSearchRun twoRoundOpts failingOracle).rounds.get
        ⟨0, hj⟩).structureAnalysis.struct.structuralScore = 1 / 5 ∧
      (0 + 1 < (adaptiveMaxRounds twoRoundOpts).toNat →
        ∃ hj1 : 0 + 1 < (adaptiveSearchRun twoRoundOpts failingOracle).rounds.length,
          ((adaptiveSearchRun twoRoundOpts failingOracle).rounds.get
            ⟨0 + 1, hj1⟩).engine = Engine.baidu) :=
  ⟨by decide,
    claim5_failed_round twoRoundOpts failingOracle "navigation timeout" (by decide) 0
      (by decide) rfl⟩

end MySkillPlatform
